import Mathlib

/-! # A blog backend: in-memory repositories and their HTTP handlers

A shallow embedding of the Go packages `model`, `repository` and `service`.

* Go's `uint64` identifiers are natural numbers; where a conversion can wrap
  (`uint64(id)` of a signed `int`) the reduction modulo `2^64` is explicit.
* A repository is a record holding the slice as a list, in insertion order.
  A method with a pointer receiver that assigns to the receiver returns the new
  receiver next to its Go result.
* A function that returns `(*T, error)` returns a pair of options, `none`
  standing for `nil`, so that the four combinations of Go stay expressible.
* A `for … range` loop with an early `return` is a structural recursion on the
  list that yields the value of that `return`, if any.
-/

set_option autoImplicit false
set_option linter.dupNamespace false

/-! ## Package `model` -/

namespace model

/-- Stand-in for Go's `time.Time`: an instant as seconds since the Unix epoch
and nanoseconds within the second. The code under study only stores and copies
timestamps. Go's zero `time.Time`, January 1 of year 1 at 00:00:00 UTC, is the
second `-62135596800`. -/
structure Time where
  sec : Int
  nsec : Nat
  deriving DecidableEq, Repr

/-- Go: `type Comment struct { Id, PostId uint64; Comment, Author string; CreationDate time.Time }`. -/
structure Comment where
  Id : Nat
  PostId : Nat
  Comment : String
  Author : String
  CreationDate : Time
  deriving DecidableEq, Repr

/-- Go: `type Post struct { Id uint64; Title, Content string; CreationDate time.Time }`. -/
structure Post where
  Id : Nat
  Title : String
  Content : String
  CreationDate : Time
  deriving DecidableEq, Repr

end model

/-! ## Package `repository` -/

namespace repository

open model

/-- Go: `type CommentAlreadyExistsError struct { id uint64 }`. -/
structure CommentAlreadyExistsError where
  id : Nat
  deriving DecidableEq, Repr

/-- Go: `type CommentNotFoundError struct { id uint64 }`. -/
structure CommentNotFoundError where
  id : Nat
  deriving DecidableEq, Repr

/-- Go: `type PostAlreadyExistsError struct { id uint64 }`. -/
structure PostAlreadyExistsError where
  id : Nat
  deriving DecidableEq, Repr

/-- Go: `type PostNotFoundError struct { id uint64 }`. -/
structure PostNotFoundError where
  id : Nat
  deriving DecidableEq, Repr

/-- The values of Go's interface type `error` that this package produces: one
constructor for each of the four error structs. `nil` is `none : Option error`. -/
inductive error where
  | commentAlreadyExists (e : CommentAlreadyExistsError)
  | commentNotFound (e : CommentNotFoundError)
  | postAlreadyExists (e : PostAlreadyExistsError)
  | postNotFound (e : PostNotFoundError)
  deriving DecidableEq, Repr

/-- Go: `fmt.Sprintf("Error: Comment with id: %v already exists in the repository!", e.id)`. -/
def CommentAlreadyExistsError.Error (e : CommentAlreadyExistsError) : String :=
  "Error: Comment with id: " ++ toString e.id ++ " already exists in the repository!"

/-- Go: `fmt.Sprintf("Error: Comment with id: %v was not found in the repository!", e.id)`. -/
def CommentNotFoundError.Error (e : CommentNotFoundError) : String :=
  "Error: Comment with id: " ++ toString e.id ++ " was not found in the repository!"

/-- Go: `fmt.Sprintf("Error: Post with id: %v already exists in the repository!", e.id)`. -/
def PostAlreadyExistsError.Error (e : PostAlreadyExistsError) : String :=
  "Error: Post with id: " ++ toString e.id ++ " already exists in the repository!"

/-- Go: `fmt.Sprintf("Error: Post with id: %v was not found in the repository!", e.id)`. -/
def PostNotFoundError.Error (e : PostNotFoundError) : String :=
  "Error: Post with id: " ++ toString e.id ++ " was not found in the repository!"

/-- The method `Error()` of the interface, dispatched on the dynamic type. -/
def error.Error : error → String
  | .commentAlreadyExists e => e.Error
  | .commentNotFound e => e.Error
  | .postAlreadyExists e => e.Error
  | .postNotFound e => e.Error

/-! ### CommentRepository -/

/-- Go: `type CommentRepository struct { repository []model.Comment }`. -/
structure CommentRepository where
  repository : List Comment
  deriving DecidableEq, Repr

/-- Go: `CustomCommentRepository(mockStorage)`. -/
def CustomCommentRepository (mockStorage : List Comment) : CommentRepository :=
  { repository := mockStorage }

/-- Go: `NewCommentRepository()`, built on `make([]model.Comment, 0)`. -/
def NewCommentRepository : CommentRepository :=
  CustomCommentRepository []

/-- The loop of `CommentRepository.Insert`:
`for _, i := range c.repository { if i.Id == comment.Id { return CommentAlreadyExistsError{comment.Id} } }`.
The result is the error of the early `return`, or `none` when the loop runs to its end. -/
def CommentRepository.insertLoop (comment : Comment) : List Comment → Option error
  | [] => none
  | i :: rest =>
    if i.Id = comment.Id then
      some (error.commentAlreadyExists { id := comment.Id })
    else
      insertLoop comment rest

/-- Go: `func (c *CommentRepository) Insert(comment model.Comment) error`.
Returns the receiver after the call and the returned error. -/
def CommentRepository.Insert (c : CommentRepository) (comment : Comment) :
    CommentRepository × Option error :=
  match CommentRepository.insertLoop comment c.repository with
  | some err => (c, some err)
  | none => ({ c with repository := c.repository ++ [comment] }, none)

/-- The loop of `CommentRepository.GetById`:
`for _, i := range c.repository { if i.Id == id { return &i, nil } }`.
The result is the entity of the early `return`, or `none` when the loop runs to its end. -/
def CommentRepository.getByIdLoop (id : Nat) : List Comment → Option Comment
  | [] => none
  | i :: rest => if i.Id = id then some i else getByIdLoop id rest

/-- Go: `func (c *CommentRepository) GetById(id uint64) (*model.Comment, error)`. -/
def CommentRepository.GetById (c : CommentRepository) (id : Nat) :
    Option Comment × Option error :=
  if c.repository.length ≤ 0 then
    (none, some (error.commentNotFound { id := id }))
  else
    match CommentRepository.getByIdLoop id c.repository with
    | some i => (some i, none)
    | none => (none, some (error.commentNotFound { id := id }))

/-- The loop of `CommentRepository.GetAllByPostId`, threading the slice `comments`:
`for _, i := range c.repository { if i.PostId == id { comments = append(comments, i) } }`. -/
def CommentRepository.getAllByPostIdLoop (id : Nat) : List Comment → List Comment → List Comment
  | [], comments => comments
  | i :: rest, comments =>
    if i.PostId = id then
      getAllByPostIdLoop id rest (comments ++ [i])
    else
      getAllByPostIdLoop id rest comments

/-- Go: `func (c *CommentRepository) GetAllByPostId(id uint64) []model.Comment`.
The slice starts as the non-nil empty literal `[]model.Comment{}`. -/
def CommentRepository.GetAllByPostId (c : CommentRepository) (id : Nat) : List Comment :=
  let comments : List Comment := []
  if c.repository.length ≤ 0 then
    comments
  else
    CommentRepository.getAllByPostIdLoop id c.repository comments

/-! ### PostRepository -/

/-- Go: `type PostRepository struct { repository []model.Post }`. -/
structure PostRepository where
  repository : List Post
  deriving DecidableEq, Repr

/-- Go: `CustomPostRepository(mockStorage)`. -/
def CustomPostRepository (mockStorage : List Post) : PostRepository :=
  { repository := mockStorage }

/-- Go: `NewPostRepository()`, built on `make([]model.Post, 0)`. -/
def NewPostRepository : PostRepository :=
  CustomPostRepository []

/-- The loop of `PostRepository.Insert`:
`for _, i := range c.repository { if i.Id == post.Id { return PostAlreadyExistsError{post.Id} } }`. -/
def PostRepository.insertLoop (post : Post) : List Post → Option error
  | [] => none
  | i :: rest =>
    if i.Id = post.Id then
      some (error.postAlreadyExists { id := post.Id })
    else
      insertLoop post rest

/-- Go: `func (c *PostRepository) Insert(post model.Post) error`.
Returns the receiver after the call and the returned error. -/
def PostRepository.Insert (c : PostRepository) (post : Post) :
    PostRepository × Option error :=
  match PostRepository.insertLoop post c.repository with
  | some err => (c, some err)
  | none => ({ c with repository := c.repository ++ [post] }, none)

/-- The loop of `PostRepository.GetById`:
`for _, i := range c.repository { if i.Id == id { return &i, nil } }`. -/
def PostRepository.getByIdLoop (id : Nat) : List Post → Option Post
  | [] => none
  | i :: rest => if i.Id = id then some i else getByIdLoop id rest

/-- Go: `func (c *PostRepository) GetById(id uint64) (*model.Post, error)`. -/
def PostRepository.GetById (c : PostRepository) (id : Nat) :
    Option Post × Option error :=
  if c.repository.length ≤ 0 then
    (none, some (error.postNotFound { id := id }))
  else
    match PostRepository.getByIdLoop id c.repository with
    | some i => (some i, none)
    | none => (none, some (error.postNotFound { id := id }))

/-- The repository after a finite sequence of `Insert` calls on a comment
repository, each call made whatever the previous ones returned. -/
def CommentRepository.insertAll (c : CommentRepository) : List Comment → CommentRepository
  | [] => c
  | e :: es => insertAll (c.Insert e).1 es

/-- The repository after a finite sequence of `Insert` calls on a post
repository, each call made whatever the previous ones returned. -/
def PostRepository.insertAll (c : PostRepository) : List Post → PostRepository
  | [] => c
  | e :: es => insertAll (c.Insert e).1 es

end repository

/-! ## Library functions used by package `service` -/

namespace strconv

/-- The digit loop of Go's `strconv.ParseUint(s, 10, 64)`: every byte must be a
decimal digit, otherwise the call is a syntax error (`none`). The accumulator is
an unbounded natural number; the range check is made by the caller. -/
def parseDigits : List Char → Nat → Option Nat
  | [], n => some n
  | c :: cs, n =>
    if '0' ≤ c ∧ c ≤ '9' then
      parseDigits cs (n * 10 + (c.toNat - '0'.toNat))
    else
      none

/-- The magnitude read by Go's `strconv.ParseUint(s, 10, 64)`, before its
range check: the empty string is a syntax error. -/
def parseMagnitude (s : List Char) : Option Nat :=
  match s with
  | [] => none
  | _ :: _ => parseDigits s 0

/-- Go's `strconv.ParseUint(s, 10, 64)`: at least one decimal digit and nothing
else, no sign; a value above `2^64 - 1` is a range error. Both kinds of error
are `none`. -/
def ParseUint (s : String) : Option Nat :=
  match parseMagnitude s.data with
  | none => none
  | some n => if n < 2 ^ 64 then some n else none

/-- Go's `strconv.ParseInt(s, 10, 0)` on a platform whose `int` has 64 bits:
an optional sign `+` or `-`, then at least one decimal digit; a magnitude
outside `-2^63 .. 2^63 - 1` is a range error. Both kinds of error are `none`. -/
def ParseInt (s : List Char) : Option Int :=
  match s with
  | [] => none
  | c :: rest =>
    let neg : Bool := c = '-'
    let digits : List Char := if c = '+' ∨ c = '-' then rest else s
    match parseMagnitude digits with
    | none => none
    | some un =>
      if ¬ neg ∧ un ≥ 2 ^ 63 then none
      else if neg ∧ un > 2 ^ 63 then none
      else some (if neg then - (un : Int) else (un : Int))

/-- Go's `strconv.Atoi(s)`: `ParseInt(s, 10, 0)` converted to `int`; the fast
path for short strings computes the same result. `none` is a non-nil error. -/
def Atoi (s : String) : Option Int :=
  ParseInt s.data

end strconv

/-- Go's conversion `uint64(id)` of a signed 64-bit `int`: the value modulo `2^64`. -/
def uint64 (id : Int) : Nat :=
  (id % (2 : Int) ^ 64).toNat

namespace http

/-- Go: `http.StatusOK`. -/
def StatusOK : Int := 200

/-- Go: `http.StatusBadRequest`. -/
def StatusBadRequest : Int := 400

/-- Go: `http.StatusNotFound`. -/
def StatusNotFound : Int := 404

/-- Go: `http.StatusInternalServerError`. -/
def StatusInternalServerError : Int := 500

/-- Go's `http.Header`, as an association list from header name to value. -/
abbrev Header := List (String × String)

/-- Go: `h.Set(key, value)`: replaces whatever the key held. -/
def Header.Set (h : Header) (key value : String) : Header :=
  (key, value) :: h.filter (fun kv => kv.1 ≠ key)

/-- Go: `h.Del(key)`: removes the key. -/
def Header.Del (h : Header) (key : String) : Header :=
  h.filter (fun kv => kv.1 ≠ key)

/-- Go: `h.Get(key)`: the value of the key, or `""` when absent. -/
def Header.Get (h : Header) (key : String) : String :=
  match h.find? (fun kv => kv.1 = key) with
  | some kv => kv.2
  | none => ""

/-- The part of `*http.Request` the handlers read: the path variables that the
router extracted (`mux.Vars(r)`) and the request body. -/
structure Request where
  vars : List (String × String)
  Body : String
  deriving DecidableEq, Repr

end http

namespace mux

/-- Go: `vars["id"]` on the map returned by `mux.Vars(r)`: the zero value `""`
when the key is absent. -/
def Vars (r : http.Request) (key : String) : String :=
  match r.vars.find? (fun kv => kv.1 = key) with
  | some kv => kv.2
  | none => ""

end mux

namespace json

/-- Go's `json.NewDecoder(r.Body).Decode(&v)` for a variable `v` holding the
zero value of its type, as a function of the text of the body: `none` when
`Decode` returns an error, otherwise the value left in `v`. The package
`encoding/json` is outside the repository; the handlers take the decoder as a
parameter, so that what is proved of them holds for every decoder. -/
abbrev Decoder (α : Type) := String → Option α

end json

/-! ## Package `service` -/

namespace service

open model repository

/-- Go: `type AckJsonResponse struct { Message string; Status int }`, the
`{message, status}` envelope. -/
structure AckJsonResponse where
  Message : String
  Status : Int
  deriving DecidableEq, Repr

/-- The bytes handed to `w.Write`, kept symbolic: the result of `json.Marshal`
is named by the value that was marshalled (an envelope, a post behind a
pointer, a slice of comments), and a plain-text line by its text. -/
inductive Payload where
  | null
  | ack (r : AckJsonResponse)
  | post (p : Post)
  | comments (cs : List Comment)
  | text (s : String)
  deriving DecidableEq, Repr

/-- Go: `json.Marshal(res)` for `res *model.Post`: `null` for the nil pointer,
otherwise the object of the post it points to. -/
def marshalPost : Option Post → Payload
  | none => Payload.null
  | some p => Payload.post p

/-- The `http.ResponseWriter` as the test recorder implements it: the live
header map, whether the status line has been written, the status code, the
headers as they were when the status line was written, and the chunks written
to the body, oldest first. -/
structure ResponseWriter where
  header : http.Header
  wroteHeader : Bool
  Code : Int
  snapHeader : http.Header
  Body : List Payload
  deriving DecidableEq, Repr

/-- A recorder nothing has been written to: status 200 unless a handler sets another. -/
def NewRecorder : ResponseWriter :=
  { header := [], wroteHeader := false, Code := 200, snapHeader := [], Body := [] }

/-- Go: `w.Header().Set(key, value)`. -/
def ResponseWriter.HeaderSet (w : ResponseWriter) (key value : String) : ResponseWriter :=
  { w with header := w.header.Set key value }

/-- Go: `w.WriteHeader(code)`: the first call fixes the status code and the
headers of the response, later calls are ignored. -/
def ResponseWriter.WriteHeader (w : ResponseWriter) (code : Int) : ResponseWriter :=
  if w.wroteHeader then w
  else { w with wroteHeader := true, Code := code, snapHeader := w.header }

/-- Go: `w.Write(data)`: writes the status line with 200 first when no
`WriteHeader` call preceded, then appends to the body. -/
def ResponseWriter.Write (w : ResponseWriter) (data : Payload) : ResponseWriter :=
  let w1 := if w.wroteHeader then w else w.WriteHeader http.StatusOK
  { w1 with Body := w1.Body ++ [data] }

/-- The `Content-Type` header of the response as the client receives it. -/
def ResponseWriter.contentType (w : ResponseWriter) : String :=
  w.snapHeader.Get "Content-Type"

/-- Go: `type RestApiService struct { postRepository *PostRepository; commentRepository *CommentRepository }`. -/
structure RestApiService where
  postRepository : PostRepository
  commentRepository : CommentRepository
  deriving DecidableEq, Repr

/-- Go: `NewRestApiService()`. -/
def NewRestApiService : RestApiService :=
  { postRepository := NewPostRepository, commentRepository := NewCommentRepository }

/-- Go: `func (svc *RestApiService) handleGetPostByPostId(w http.ResponseWriter, r *http.Request)`.
Returns the service and the response writer after the call. -/
def RestApiService.handleGetPostByPostId (svc : RestApiService) (w : ResponseWriter)
    (r : http.Request) : RestApiService × ResponseWriter :=
  let vars := mux.Vars r
  let parsed := strconv.Atoi (vars "id")
  let w := w.HeaderSet "Content-Type" "application/json"
  match parsed with
  | none =>
    let w := w.WriteHeader http.StatusBadRequest
    let response := Payload.ack
      { Message := "wrong id path variable: " ++ vars "id", Status := http.StatusBadRequest }
    (svc, w.Write response)
  | some id =>
    match svc.postRepository.GetById (uint64 id) with
    | (_, some _) =>
      let w := w.WriteHeader http.StatusNotFound
      let response := Payload.ack
        { Message := "Post with id: " ++ toString id ++ " does not exist",
          Status := http.StatusNotFound }
      (svc, w.Write response)
    | (res, none) =>
      let response := marshalPost res
      let w := w.WriteHeader http.StatusOK
      (svc, w.Write response)

/-- Go: `func (svc *RestApiService) handleGetCommentsByPostId(w http.ResponseWriter, r *http.Request)`.
Returns the service and the response writer after the call. -/
def RestApiService.handleGetCommentsByPostId (svc : RestApiService) (w : ResponseWriter)
    (r : http.Request) : RestApiService × ResponseWriter :=
  let vars := mux.Vars r
  let parsed := strconv.Atoi (vars "id")
  let w := w.HeaderSet "Content-Type" "application/json"
  match parsed with
  | none =>
    let w := w.WriteHeader http.StatusBadRequest
    let response := Payload.ack
      { Message := "wrong id path variable: " ++ vars "id", Status := http.StatusBadRequest }
    (svc, w.Write response)
  | some id =>
    let res := svc.commentRepository.GetAllByPostId (uint64 id)
    let response := Payload.comments res
    let w := w.WriteHeader http.StatusOK
    (svc, w.Write response)

end service

/-- Go: `http.Error(w, text, code)`: drops `Content-Length`, sets the plain-text
content type and `nosniff`, writes the status line and prints the text as one line. -/
def http.Error (w : service.ResponseWriter) (text : String) (code : Int) :
    service.ResponseWriter :=
  let w := { w with header := w.header.Del "Content-Length" }
  let w := w.HeaderSet "Content-Type" "text/plain; charset=utf-8"
  let w := w.HeaderSet "X-Content-Type-Options" "nosniff"
  let w := w.WriteHeader code
  w.Write (service.Payload.text text)

namespace service

open model repository

/-- Go: `func (svc *RestApiService) handleAddPost(w http.ResponseWriter, r *http.Request)`.
Returns the service and the response writer after the call. `json.Marshal` of
an `AckJsonResponse` and `w.Write` on the recorder return no error, so the two
last `http.Error` calls of the source are never reached. -/
def RestApiService.handleAddPost (decode : json.Decoder Post) (svc : RestApiService)
    (w : ResponseWriter) (r : http.Request) : RestApiService × ResponseWriter :=
  match decode r.Body with
  | none => (svc, http.Error w "400 Bad Request" http.StatusBadRequest)
  | some post =>
    match svc.postRepository.Insert post with
    | (repo, some err) =>
      ({ svc with postRepository := repo },
        http.Error w err.Error http.StatusInternalServerError)
    | (repo, none) =>
      let w := w.HeaderSet "Content-Type" "application/json"
      let data := Payload.ack
        { Message := "post id: " ++ toString post.Id ++ " successfully added",
          Status := http.StatusOK }
      ({ svc with postRepository := repo }, w.Write data)

/-- Go: `func (svc *RestApiService) handleAddComment(w http.ResponseWriter, r *http.Request)`.
Returns the service and the response writer after the call. -/
def RestApiService.handleAddComment (decode : json.Decoder Comment) (svc : RestApiService)
    (w : ResponseWriter) (r : http.Request) : RestApiService × ResponseWriter :=
  let w := w.HeaderSet "Content-Type" "application/json"
  match decode r.Body with
  | none =>
    let w := w.WriteHeader http.StatusBadRequest
    let response := Payload.ack
      { Message := "could not deserialize comment json payload",
        Status := http.StatusBadRequest }
    (svc, w.Write response)
  | some body =>
    if body.Id ≤ 0 then
      let w := w.WriteHeader http.StatusBadRequest
      let response := Payload.ack
        { Message := "could not deserialize comment json payload",
          Status := http.StatusBadRequest }
      (svc, w.Write response)
    else
      match svc.commentRepository.Insert body with
      | (repo, some _) =>
        let w := w.WriteHeader http.StatusBadRequest
        let response := Payload.ack
          { Message := "Comment with id: " ++ toString body.Id
              ++ " already exists in the database",
            Status := http.StatusBadRequest }
        ({ svc with commentRepository := repo }, w.Write response)
      | (repo, none) =>
        let response := Payload.ack
          { Message := "comment id: " ++ toString body.Id ++ " successfully added",
            Status := http.StatusOK }
        let w := w.WriteHeader http.StatusOK
        ({ svc with commentRepository := repo }, w.Write response)

/-- A POST request as the router hands it to a handler: no path variable, and
the given text as body. -/
def bodyRequest (body : String) : http.Request :=
  { vars := [], Body := body }

/-- The recorder of a response written by `http.Error` on a fresh recorder:
plain-text content type, status code `code`, and the line `text` as body. -/
def textRecorder (code : Int) (text : String) : ResponseWriter :=
  { header := [("X-Content-Type-Options", "nosniff"),
               ("Content-Type", "text/plain; charset=utf-8")],
    wroteHeader := true,
    Code := code,
    snapHeader := [("X-Content-Type-Options", "nosniff"),
                   ("Content-Type", "text/plain; charset=utf-8")],
    Body := [Payload.text text] }

/-- A GET request as the router hands it to a handler: the path variable `id`
bound to the text of the last path segment, and no body. -/
def pathRequest (id : String) : http.Request :=
  { vars := [("id", id)], Body := "" }

/-- The recorder of a response whose `Content-Type` is `application/json`,
whose status code is `code` and whose body is the single chunk `body`. -/
def jsonRecorder (code : Int) (body : Payload) : ResponseWriter :=
  { header := [("Content-Type", "application/json")],
    wroteHeader := true,
    Code := code,
    snapHeader := [("Content-Type", "application/json")],
    Body := [body] }

end service

/-! ## Sample data -/

namespace repository

open model

/-- A comment store of two entries. -/
def sampleComments : List Comment :=
  [ { Id := 1, PostId := 101, Comment := "comment2", Author := "author2",
      CreationDate := { sec := 10011, nsec := 0 } },
    { Id := 3, PostId := 100, Comment := "comment3", Author := "author3",
      CreationDate := { sec := 10022, nsec := 0 } } ]

/-- A comment whose id is the id of the first entry of `sampleComments`. -/
def sampleClash : Comment :=
  { Id := 1, PostId := 7, Comment := "other", Author := "someone",
    CreationDate := { sec := 5, nsec := 0 } }

/-- A post store of two entries. -/
def samplePosts : List Post :=
  [ { Id := 101, Title := "post1", Content := "content",
      CreationDate := { sec := 10011, nsec := 0 } },
    { Id := 102, Title := "post2", Content := "content",
      CreationDate := { sec := 10012, nsec := 0 } } ]

/-- A post whose id is the id of the second entry of `samplePosts`. -/
def samplePostClash : Post :=
  { Id := 102, Title := "again", Content := "", CreationDate := { sec := 1, nsec := 0 } }

/-- A comment whose id occurs nowhere in `sampleComments`. -/
def sampleFresh : Comment :=
  { Id := 2, PostId := 101, Comment := "comment2", Author := "author2",
    CreationDate := { sec := 10011, nsec := 0 } }

/-- A comment with the id of `sampleClash` and other fields of its own. -/
def sampleTwin : Comment :=
  { Id := 1, PostId := 9, Comment := "twin", Author := "nobody",
    CreationDate := { sec := 6, nsec := 1 } }

/-- A post whose id occurs nowhere in `samplePosts`. -/
def samplePostFresh : Post :=
  { Id := 103, Title := "post3", Content := "content",
    CreationDate := { sec := 10013, nsec := 0 } }

/-- A post with the id of `samplePostClash` and other fields of its own. -/
def samplePostTwin : Post :=
  { Id := 102, Title := "twin", Content := "x", CreationDate := { sec := 2, nsec := 0 } }

/-- A comment store in which the id 3 occurs twice, as `CustomCommentRepository` allows. -/
def sampleRepeated : List Comment :=
  [ { Id := 1, PostId := 101, Comment := "a", Author := "x", CreationDate := { sec := 1, nsec := 0 } },
    { Id := 3, PostId := 100, Comment := "first", Author := "y", CreationDate := { sec := 2, nsec := 0 } },
    { Id := 3, PostId := 100, Comment := "second", Author := "z", CreationDate := { sec := 3, nsec := 0 } } ]

/-- A post store in which the id 102 occurs twice, as `CustomPostRepository` allows. -/
def samplePostsRepeated : List Post :=
  [ { Id := 102, Title := "first", Content := "c", CreationDate := { sec := 1, nsec := 0 } },
    { Id := 101, Title := "other", Content := "c", CreationDate := { sec := 2, nsec := 0 } },
    { Id := 102, Title := "second", Content := "c", CreationDate := { sec := 3, nsec := 0 } } ]

end repository

namespace service

open model repository

/-- A post whose id is `2^64 - 5`, the value of `uint64(-5)`. -/
def sampleWrappedPost : Post :=
  { Id := 18446744073709551611, Title := "wrapped", Content := "text",
    CreationDate := { sec := 1537099200, nsec := 0 } }

/-- A post whose id is 5. -/
def sampleFifthPost : Post :=
  { Id := 5, Title := "fifth", Content := "text",
    CreationDate := { sec := 1537099200, nsec := 0 } }

/-- A comment on the post whose id is `2^64 - 5`. -/
def sampleWrappedComment : Comment :=
  { Id := 123, PostId := 18446744073709551611, Comment := "abc", Author := "cool author",
    CreationDate := { sec := 1537099200, nsec := 0 } }

/-- A service that stores `sampleWrappedPost`, `sampleFifthPost` and `sampleWrappedComment`. -/
def sampleService : RestApiService :=
  { postRepository := CustomPostRepository [sampleWrappedPost, sampleFifthPost],
    commentRepository := CustomCommentRepository [sampleWrappedComment] }

/-- A post whose id is `2^63`, a value of `uint64` above the largest `int`. -/
def sampleLargePost : Post :=
  { Id := 9223372036854775808, Title := "happy post", Content := "test content",
    CreationDate := { sec := 1537099200, nsec := 0 } }

/-- A service whose post repository stores `sampleLargePost` alone. -/
def sampleLargeService : RestApiService :=
  { postRepository := CustomPostRepository [sampleLargePost],
    commentRepository := CustomCommentRepository [] }

/-- A service that stores `samplePosts` (ids 101 and 102) and `sampleComments`
(ids 1 and 3). -/
def sampleMixedService : RestApiService :=
  { postRepository := CustomPostRepository samplePosts,
    commentRepository := CustomCommentRepository sampleComments }

/-- Two comments on the post whose id is `2^63`, and one on the post whose id is 3. -/
def sampleLargeComments : List Comment :=
  [ { Id := 123, PostId := 9223372036854775808, Comment := "abc", Author := "cool author",
      CreationDate := { sec := 1537099200, nsec := 0 } },
    { Id := 321, PostId := 3, Comment := "def", Author := "cool author2",
      CreationDate := { sec := 1537099200, nsec := 0 } },
    { Id := 543, PostId := 9223372036854775808, Comment := "ghi", Author := "cool author3",
      CreationDate := { sec := 1537099200, nsec := 0 } } ]

/-- A service whose comment repository stores `sampleLargeComments`. -/
def sampleLargeCommentService : RestApiService :=
  { postRepository := CustomPostRepository [],
    commentRepository := CustomCommentRepository sampleLargeComments }

/-- The comment of the handler tests, with a fixed creation date. -/
def sampleValidComment : Comment :=
  { Id := 123, PostId := 3, Comment := "cool cmnt", Author := "cool auth",
    CreationDate := { sec := 1537099200, nsec := 0 } }

/-- The JSON text of `sampleValidComment`, as `json.Marshal` writes it. -/
def sampleValidBody : String :=
  "\x7b\"Id\":123,\"PostId\":3,\"Comment\":\"cool cmnt\",\"Author\":\"cool auth\",\"CreationDate\":\"2018-09-16T12:00:00Z\"\x7d"

/-- A JSON object that has the member `Id` and misses the four other members of `Comment`. -/
def sampleIncompleteBody : String :=
  "\x7b\"Id\":5\x7d"

/-- What `Decode` leaves in a zero `Comment` on `sampleIncompleteBody`: the id
is set, every other field keeps its zero value, the zero `time.Time` for the
creation date. -/
def sampleIncompleteComment : Comment :=
  { Id := 5, PostId := 0, Comment := "", Author := "",
    CreationDate := { sec := -62135596800, nsec := 0 } }

/-- The zero value of `Comment`, which `Decode` leaves untouched on the body `\x7b\x7d`. -/
def sampleZeroComment : Comment :=
  { Id := 0, PostId := 0, Comment := "", Author := "",
    CreationDate := { sec := -62135596800, nsec := 0 } }

/-- A decoder of comments given by its values on the bodies used below: the
text of `sampleValidComment`, the object with the sole member `Id`, and the
empty object decode as `encoding/json` decodes them; any other text, such as
`invalidJson`, is a decoding error. -/
def sampleDecodeComment : json.Decoder Comment := fun body =>
  if body = sampleValidBody then some sampleValidComment
  else if body = sampleIncompleteBody then some sampleIncompleteComment
  else if body = "\x7b\x7d" then some sampleZeroComment
  else none

/-- A service whose comment repository stores `sampleValidComment`. -/
def sampleCommentService : RestApiService :=
  { postRepository := CustomPostRepository [],
    commentRepository := CustomCommentRepository [sampleValidComment] }

/-- The post of the handler test, with a fixed creation date. -/
def sampleValidPost : Post :=
  { Id := 256, Title := "title", Content := "cntnt",
    CreationDate := { sec := 1537099200, nsec := 0 } }

/-- The JSON text of `sampleValidPost`, as `json.Marshal` writes it. -/
def sampleValidPostBody : String :=
  "\x7b\"Id\":256,\"Title\":\"title\",\"Content\":\"cntnt\",\"CreationDate\":\"2018-09-16T12:00:00Z\"\x7d"

/-- A decoder of posts given by its value on the text of `sampleValidPost`,
decoded as `encoding/json` decodes it; any other text is a decoding error. -/
def sampleDecodePost : json.Decoder Post := fun body =>
  if body = sampleValidPostBody then some sampleValidPost else none

/-- A service whose post repository stores `sampleValidPost`. -/
def samplePostService : RestApiService :=
  { postRepository := CustomPostRepository [sampleValidPost],
    commentRepository := CustomCommentRepository [] }

end service

/-! ## Facts about the loops -/

namespace repository

open model

theorem comment_insertLoop_hit (e : Comment) (s : List Comment)
    (h : ∃ x ∈ s, x.Id = e.Id) :
    CommentRepository.insertLoop e s = some (error.commentAlreadyExists { id := e.Id }) := by
  induction s with
  | nil => simp at h
  | cons a rest ih =>
    by_cases ha : a.Id = e.Id
    · simp [CommentRepository.insertLoop, ha]
    · have hrest : ∃ x ∈ rest, x.Id = e.Id := by
        obtain ⟨x, hx, hxe⟩ := h
        rcases List.mem_cons.mp hx with rfl | hx
        · exact absurd hxe ha
        · exact ⟨x, hx, hxe⟩
      simp [CommentRepository.insertLoop, ha, ih hrest]

theorem comment_insertLoop_miss (e : Comment) (s : List Comment)
    (h : ¬ ∃ x ∈ s, x.Id = e.Id) :
    CommentRepository.insertLoop e s = none := by
  induction s with
  | nil => rfl
  | cons a rest ih =>
    have ha : ¬ a.Id = e.Id := fun hae => h ⟨a, List.mem_cons_self _ _, hae⟩
    have hrest : ¬ ∃ x ∈ rest, x.Id = e.Id := fun ⟨x, hx, hxe⟩ =>
      h ⟨x, List.mem_cons_of_mem _ hx, hxe⟩
    simp [CommentRepository.insertLoop, ha, ih hrest]

theorem post_insertLoop_hit (e : Post) (s : List Post)
    (h : ∃ x ∈ s, x.Id = e.Id) :
    PostRepository.insertLoop e s = some (error.postAlreadyExists { id := e.Id }) := by
  induction s with
  | nil => simp at h
  | cons a rest ih =>
    by_cases ha : a.Id = e.Id
    · simp [PostRepository.insertLoop, ha]
    · have hrest : ∃ x ∈ rest, x.Id = e.Id := by
        obtain ⟨x, hx, hxe⟩ := h
        rcases List.mem_cons.mp hx with rfl | hx
        · exact absurd hxe ha
        · exact ⟨x, hx, hxe⟩
      simp [PostRepository.insertLoop, ha, ih hrest]

theorem post_insertLoop_miss (e : Post) (s : List Post)
    (h : ¬ ∃ x ∈ s, x.Id = e.Id) :
    PostRepository.insertLoop e s = none := by
  induction s with
  | nil => rfl
  | cons a rest ih =>
    have ha : ¬ a.Id = e.Id := fun hae => h ⟨a, List.mem_cons_self _ _, hae⟩
    have hrest : ¬ ∃ x ∈ rest, x.Id = e.Id := fun ⟨x, hx, hxe⟩ =>
      h ⟨x, List.mem_cons_of_mem _ hx, hxe⟩
    simp [PostRepository.insertLoop, ha, ih hrest]

/-- What `CommentRepository.Insert` does when the id is taken. -/
theorem comment_Insert_hit (c : CommentRepository) (e : Comment)
    (h : ∃ x ∈ c.repository, x.Id = e.Id) :
    c.Insert e = (c, some (error.commentAlreadyExists { id := e.Id })) := by
  simp [CommentRepository.Insert, comment_insertLoop_hit e c.repository h]

/-- What `CommentRepository.Insert` does when the id is free. -/
theorem comment_Insert_miss (c : CommentRepository) (e : Comment)
    (h : ¬ ∃ x ∈ c.repository, x.Id = e.Id) :
    c.Insert e = ({ repository := c.repository ++ [e] }, none) := by
  simp [CommentRepository.Insert, comment_insertLoop_miss e c.repository h]

/-- What `PostRepository.Insert` does when the id is taken. -/
theorem post_Insert_hit (c : PostRepository) (e : Post)
    (h : ∃ x ∈ c.repository, x.Id = e.Id) :
    c.Insert e = (c, some (error.postAlreadyExists { id := e.Id })) := by
  simp [PostRepository.Insert, post_insertLoop_hit e c.repository h]

/-- What `PostRepository.Insert` does when the id is free. -/
theorem post_Insert_miss (c : PostRepository) (e : Post)
    (h : ¬ ∃ x ∈ c.repository, x.Id = e.Id) :
    c.Insert e = ({ repository := c.repository ++ [e] }, none) := by
  simp [PostRepository.Insert, post_insertLoop_miss e c.repository h]

/-- One `Insert` on a comment repository keeps the ids pairwise distinct. -/
theorem comment_Insert_nodup (c : CommentRepository) (e : Comment)
    (h : (c.repository.map Comment.Id).Nodup) :
    ((c.Insert e).1.repository.map Comment.Id).Nodup := by
  by_cases hx : ∃ x ∈ c.repository, x.Id = e.Id
  · rw [comment_Insert_hit c e hx]
    exact h
  · rw [comment_Insert_miss c e hx]
    simp only [List.map_append, List.map_cons, List.map_nil]
    refine List.Nodup.append h (List.nodup_singleton _) ?_
    intro a ha hb
    rw [List.mem_singleton] at hb
    obtain ⟨x, hxs, hxa⟩ := List.mem_map.mp ha
    exact hx ⟨x, hxs, hxa.trans hb⟩

/-- Any run of `Insert` calls on a comment repository keeps the ids pairwise distinct. -/
theorem comment_insertAll_nodup (es : List Comment) (c : CommentRepository)
    (h : (c.repository.map Comment.Id).Nodup) :
    ((c.insertAll es).repository.map Comment.Id).Nodup := by
  induction es generalizing c with
  | nil => exact h
  | cons e rest ih => exact ih (c.Insert e).1 (comment_Insert_nodup c e h)

/-- One `Insert` on a post repository keeps the ids pairwise distinct. -/
theorem post_Insert_nodup (c : PostRepository) (e : Post)
    (h : (c.repository.map Post.Id).Nodup) :
    ((c.Insert e).1.repository.map Post.Id).Nodup := by
  by_cases hx : ∃ x ∈ c.repository, x.Id = e.Id
  · rw [post_Insert_hit c e hx]
    exact h
  · rw [post_Insert_miss c e hx]
    simp only [List.map_append, List.map_cons, List.map_nil]
    refine List.Nodup.append h (List.nodup_singleton _) ?_
    intro a ha hb
    rw [List.mem_singleton] at hb
    obtain ⟨x, hxs, hxa⟩ := List.mem_map.mp ha
    exact hx ⟨x, hxs, hxa.trans hb⟩

/-- Any run of `Insert` calls on a post repository keeps the ids pairwise distinct. -/
theorem post_insertAll_nodup (es : List Post) (c : PostRepository)
    (h : (c.repository.map Post.Id).Nodup) :
    ((c.insertAll es).repository.map Post.Id).Nodup := by
  induction es generalizing c with
  | nil => exact h
  | cons e rest ih => exact ih (c.Insert e).1 (post_Insert_nodup c e h)

/-- The loop of `CommentRepository.GetById` finds nothing when no id matches. -/
theorem comment_getByIdLoop_miss (id : Nat) (s : List Comment)
    (h : ∀ x ∈ s, x.Id ≠ id) : CommentRepository.getByIdLoop id s = none := by
  induction s with
  | nil => rfl
  | cons a rest ih =>
    have ha : ¬ a.Id = id := h a (List.mem_cons_self _ _)
    simp [CommentRepository.getByIdLoop, ha, ih (fun x hx => h x (List.mem_cons_of_mem _ hx))]

/-- The loop of `CommentRepository.GetById` stops at the first entry with the id. -/
theorem comment_getByIdLoop_hit (id : Nat) (s : List Comment)
    (h : ∃ x ∈ s, x.Id = id) :
    ∃ pre x post, s = pre ++ x :: post ∧ x.Id = id ∧ (∀ y ∈ pre, y.Id ≠ id)
      ∧ CommentRepository.getByIdLoop id s = some x := by
  induction s with
  | nil => simp at h
  | cons a rest ih =>
    by_cases ha : a.Id = id
    · exact ⟨[], a, rest, rfl, ha, by simp, by simp [CommentRepository.getByIdLoop, ha]⟩
    · have hrest : ∃ x ∈ rest, x.Id = id := by
        obtain ⟨x, hx, hxe⟩ := h
        rcases List.mem_cons.mp hx with rfl | hx
        · exact absurd hxe ha
        · exact ⟨x, hx, hxe⟩
      obtain ⟨pre, x, post, hs, hx, hpre, hloop⟩ := ih hrest
      refine ⟨a :: pre, x, post, by simp [hs], hx, ?_, ?_⟩
      · intro y hy
        rcases List.mem_cons.mp hy with rfl | hy
        · exact ha
        · exact hpre y hy
      · simp [CommentRepository.getByIdLoop, ha, hloop]

/-- The loop of `PostRepository.GetById` finds nothing when no id matches. -/
theorem post_getByIdLoop_miss (id : Nat) (s : List Post)
    (h : ∀ x ∈ s, x.Id ≠ id) : PostRepository.getByIdLoop id s = none := by
  induction s with
  | nil => rfl
  | cons a rest ih =>
    have ha : ¬ a.Id = id := h a (List.mem_cons_self _ _)
    simp [PostRepository.getByIdLoop, ha, ih (fun x hx => h x (List.mem_cons_of_mem _ hx))]

/-- The loop of `PostRepository.GetById` stops at the first entry with the id. -/
theorem post_getByIdLoop_hit (id : Nat) (s : List Post)
    (h : ∃ x ∈ s, x.Id = id) :
    ∃ pre x post, s = pre ++ x :: post ∧ x.Id = id ∧ (∀ y ∈ pre, y.Id ≠ id)
      ∧ PostRepository.getByIdLoop id s = some x := by
  induction s with
  | nil => simp at h
  | cons a rest ih =>
    by_cases ha : a.Id = id
    · exact ⟨[], a, rest, rfl, ha, by simp, by simp [PostRepository.getByIdLoop, ha]⟩
    · have hrest : ∃ x ∈ rest, x.Id = id := by
        obtain ⟨x, hx, hxe⟩ := h
        rcases List.mem_cons.mp hx with rfl | hx
        · exact absurd hxe ha
        · exact ⟨x, hx, hxe⟩
      obtain ⟨pre, x, post, hs, hx, hpre, hloop⟩ := ih hrest
      refine ⟨a :: pre, x, post, by simp [hs], hx, ?_, ?_⟩
      · intro y hy
        rcases List.mem_cons.mp hy with rfl | hy
        · exact ha
        · exact hpre y hy
      · simp [PostRepository.getByIdLoop, ha, hloop]

/-- What `CommentRepository.GetById` returns when no stored entry has the id. -/
theorem comment_GetById_miss (c : CommentRepository) (id : Nat)
    (h : ∀ x ∈ c.repository, x.Id ≠ id) :
    c.GetById id = (none, some (error.commentNotFound { id := id })) := by
  unfold CommentRepository.GetById
  split
  · rfl
  · rw [comment_getByIdLoop_miss id c.repository h]

/-- What `CommentRepository.GetById` returns when some stored entry has the id. -/
theorem comment_GetById_hit (c : CommentRepository) (id : Nat)
    (h : ∃ x ∈ c.repository, x.Id = id) :
    ∃ pre x post, c.repository = pre ++ x :: post ∧ x.Id = id ∧ (∀ y ∈ pre, y.Id ≠ id)
      ∧ c.GetById id = (some x, none) := by
  obtain ⟨pre, x, post, hs, hx, hpre, hloop⟩ :=
    comment_getByIdLoop_hit id c.repository h
  refine ⟨pre, x, post, hs, hx, hpre, ?_⟩
  unfold CommentRepository.GetById
  split
  · rename_i hlen
    rw [hs] at hlen
    simp at hlen
  · rw [hloop]

/-- What `PostRepository.GetById` returns when no stored entry has the id. -/
theorem post_GetById_miss (c : PostRepository) (id : Nat)
    (h : ∀ x ∈ c.repository, x.Id ≠ id) :
    c.GetById id = (none, some (error.postNotFound { id := id })) := by
  unfold PostRepository.GetById
  split
  · rfl
  · rw [post_getByIdLoop_miss id c.repository h]

/-- What `PostRepository.GetById` returns when some stored entry has the id. -/
theorem post_GetById_hit (c : PostRepository) (id : Nat)
    (h : ∃ x ∈ c.repository, x.Id = id) :
    ∃ pre x post, c.repository = pre ++ x :: post ∧ x.Id = id ∧ (∀ y ∈ pre, y.Id ≠ id)
      ∧ c.GetById id = (some x, none) := by
  obtain ⟨pre, x, post, hs, hx, hpre, hloop⟩ :=
    post_getByIdLoop_hit id c.repository h
  refine ⟨pre, x, post, hs, hx, hpre, ?_⟩
  unfold PostRepository.GetById
  split
  · rename_i hlen
    rw [hs] at hlen
    simp at hlen
  · rw [hloop]

/-- The loop of `GetAllByPostId` appends the matching entries, in order, to
what the slice already holds. -/
theorem comment_getAllByPostIdLoop_eq (id : Nat) (s acc : List Comment) :
    CommentRepository.getAllByPostIdLoop id s acc
      = acc ++ s.filter (fun x => decide (x.PostId = id)) := by
  induction s generalizing acc with
  | nil => simp [CommentRepository.getAllByPostIdLoop]
  | cons a rest ih =>
    by_cases ha : a.PostId = id
    · simp [CommentRepository.getAllByPostIdLoop, ha, ih]
    · simp [CommentRepository.getAllByPostIdLoop, ha, ih]

/-! ## Insert -/

/-- C1: for both repositories, `Insert(e)` returns the already-exists error
carrying `e.Id` exactly when some stored entry has the id of `e`, and returns
no error (`nil`) exactly when no stored entry has it. -/
theorem insert_already_exists_iff (c : CommentRepository) (e : Comment)
    (p : PostRepository) (q : Post) :
    (((c.Insert e).2 = some (error.commentAlreadyExists { id := e.Id })
        ↔ ∃ x ∈ c.repository, x.Id = e.Id)
      ∧ ((c.Insert e).2 = none ↔ ¬ ∃ x ∈ c.repository, x.Id = e.Id))
    ∧ (((p.Insert q).2 = some (error.postAlreadyExists { id := q.Id })
        ↔ ∃ x ∈ p.repository, x.Id = q.Id)
      ∧ ((p.Insert q).2 = none ↔ ¬ ∃ x ∈ p.repository, x.Id = q.Id)) := by
  refine ⟨?_, ?_⟩
  · by_cases h : ∃ x ∈ c.repository, x.Id = e.Id
    · simp [comment_Insert_hit c e h, h]
    · simp [comment_Insert_miss c e h, h]
  · by_cases h : ∃ x ∈ p.repository, x.Id = q.Id
    · simp [post_Insert_hit p q h, h]
    · simp [post_Insert_miss p q h, h]

/-- C2: for both repositories, when `Insert(e)` returns an error the stored
sequence after the call is the one before the call, entry for entry. -/
theorem insert_error_keeps_store (c : CommentRepository) (e : Comment)
    (p : PostRepository) (q : Post) :
    ((c.Insert e).2 ≠ none → (c.Insert e).1.repository = c.repository)
    ∧ ((p.Insert q).2 ≠ none → (p.Insert q).1.repository = p.repository) := by
  refine ⟨?_, ?_⟩
  · intro h
    by_cases hx : ∃ x ∈ c.repository, x.Id = e.Id
    · rw [comment_Insert_hit c e hx]
    · rw [comment_Insert_miss c e hx] at h
      exact absurd rfl h
  · intro h
    by_cases hx : ∃ x ∈ p.repository, x.Id = q.Id
    · rw [post_Insert_hit p q hx]
    · rw [post_Insert_miss p q hx] at h
      exact absurd rfl h

theorem insert_error_keeps_store_witness :
    ((CustomCommentRepository sampleComments).Insert sampleClash).2 ≠ none
    ∧ ((CustomCommentRepository sampleComments).Insert sampleClash).1.repository = sampleComments
    ∧ ((CustomPostRepository samplePosts).Insert samplePostClash).2 ≠ none
    ∧ ((CustomPostRepository samplePosts).Insert samplePostClash).1.repository = samplePosts :=
  ⟨by decide,
   (insert_error_keeps_store (CustomCommentRepository sampleComments) sampleClash
      (CustomPostRepository samplePosts) samplePostClash).1 (by decide),
   by decide,
   (insert_error_keeps_store (CustomCommentRepository sampleComments) sampleClash
      (CustomPostRepository samplePosts) samplePostClash).2 (by decide)⟩

/-- C3: for both repositories, when no stored entry has the id of `e`,
`Insert(e)` returns no error and the stored sequence afterwards is the previous
one with `e` appended as its last element. -/
theorem insert_fresh_appends (c : CommentRepository) (e : Comment)
    (p : PostRepository) (q : Post) :
    ((∀ x ∈ c.repository, x.Id ≠ e.Id) →
        (c.Insert e).2 = none ∧ (c.Insert e).1.repository = c.repository ++ [e])
    ∧ ((∀ x ∈ p.repository, x.Id ≠ q.Id) →
        (p.Insert q).2 = none ∧ (p.Insert q).1.repository = p.repository ++ [q]) := by
  refine ⟨?_, ?_⟩
  · intro h
    have hx : ¬ ∃ x ∈ c.repository, x.Id = e.Id := fun ⟨x, hxs, hxe⟩ => h x hxs hxe
    rw [comment_Insert_miss c e hx]
    exact ⟨rfl, rfl⟩
  · intro h
    have hx : ¬ ∃ x ∈ p.repository, x.Id = q.Id := fun ⟨x, hxs, hxe⟩ => h x hxs hxe
    rw [post_Insert_miss p q hx]
    exact ⟨rfl, rfl⟩

theorem insert_fresh_appends_witness :
    ((∀ x ∈ (CustomCommentRepository sampleComments).repository, x.Id ≠ sampleFresh.Id)
      ∧ ((CustomCommentRepository sampleComments).Insert sampleFresh).2 = none
      ∧ ((CustomCommentRepository sampleComments).Insert sampleFresh).1.repository
          = sampleComments ++ [sampleFresh])
    ∧ ((∀ x ∈ (CustomPostRepository samplePosts).repository, x.Id ≠ samplePostFresh.Id)
      ∧ ((CustomPostRepository samplePosts).Insert samplePostFresh).2 = none
      ∧ ((CustomPostRepository samplePosts).Insert samplePostFresh).1.repository
          = samplePosts ++ [samplePostFresh]) :=
  ⟨⟨by decide,
    (insert_fresh_appends (CustomCommentRepository sampleComments) sampleFresh
      (CustomPostRepository samplePosts) samplePostFresh).1 (by decide)⟩,
   ⟨by decide,
    (insert_fresh_appends (CustomCommentRepository sampleComments) sampleFresh
      (CustomPostRepository samplePosts) samplePostFresh).2 (by decide)⟩⟩

/-- C4: every state reached from `NewCommentRepository()` (resp.
`NewPostRepository()`) by a finite sequence of `Insert` calls, whatever each
call returned, holds no two entries with the same id. -/
theorem insert_keeps_ids_unique (es : List Comment) (ps : List Post) :
    ((NewCommentRepository.insertAll es).repository.map Comment.Id).Nodup
    ∧ ((NewPostRepository.insertAll ps).repository.map Post.Id).Nodup :=
  ⟨comment_insertAll_nodup es NewCommentRepository List.nodup_nil,
   post_insertAll_nodup ps NewPostRepository List.nodup_nil⟩

/-- C5: on a freshly created repository of either kind, for two entities with
the same id, the first `Insert` succeeds, the second fails with the
already-exists error carrying that id, and the store then holds the first
entity alone. -/
theorem insert_twice_same_id (e1 e2 : Comment) (q1 q2 : Post) :
    (e1.Id = e2.Id →
        (NewCommentRepository.Insert e1).2 = none
        ∧ ((NewCommentRepository.Insert e1).1.Insert e2).2
            = some (error.commentAlreadyExists { id := e1.Id })
        ∧ ((NewCommentRepository.Insert e1).1.Insert e2).1.repository = [e1])
    ∧ (q1.Id = q2.Id →
        (NewPostRepository.Insert q1).2 = none
        ∧ ((NewPostRepository.Insert q1).1.Insert q2).2
            = some (error.postAlreadyExists { id := q1.Id })
        ∧ ((NewPostRepository.Insert q1).1.Insert q2).1.repository = [q1]) := by
  refine ⟨?_, ?_⟩
  · intro h
    simp [NewCommentRepository, CustomCommentRepository, CommentRepository.Insert,
      CommentRepository.insertLoop, h]
  · intro h
    simp [NewPostRepository, CustomPostRepository, PostRepository.Insert,
      PostRepository.insertLoop, h]

theorem insert_twice_same_id_witness :
    (sampleClash.Id = sampleTwin.Id
      ∧ (NewCommentRepository.Insert sampleClash).2 = none
      ∧ ((NewCommentRepository.Insert sampleClash).1.Insert sampleTwin).2
          = some (error.commentAlreadyExists { id := sampleClash.Id })
      ∧ ((NewCommentRepository.Insert sampleClash).1.Insert sampleTwin).1.repository
          = [sampleClash])
    ∧ (samplePostClash.Id = samplePostTwin.Id
      ∧ (NewPostRepository.Insert samplePostClash).2 = none
      ∧ ((NewPostRepository.Insert samplePostClash).1.Insert samplePostTwin).2
          = some (error.postAlreadyExists { id := samplePostClash.Id })
      ∧ ((NewPostRepository.Insert samplePostClash).1.Insert samplePostTwin).1.repository
          = [samplePostClash]) :=
  ⟨⟨by decide,
    (insert_twice_same_id sampleClash sampleTwin samplePostClash samplePostTwin).1
      (by decide)⟩,
   ⟨by decide,
    (insert_twice_same_id sampleClash sampleTwin samplePostClash samplePostTwin).2
      (by decide)⟩⟩

/-! ## Lookups -/

/-- C6: for both repositories and every stored sequence, the empty one
included, `GetById(id)` returns `(nil, NotFoundError{id})` exactly when no
stored entry has the id; it never returns a nil entity with a nil error, nor a
non-nil entity with an error. -/
theorem getById_not_found_iff (c : CommentRepository) (p : PostRepository) (id : Nat) :
    ((c.GetById id = (none, some (error.commentNotFound { id := id }))
        ↔ ∀ x ∈ c.repository, x.Id ≠ id)
      ∧ ¬ ((c.GetById id).1 = none ∧ (c.GetById id).2 = none)
      ∧ ¬ ((c.GetById id).1 ≠ none ∧ (c.GetById id).2 ≠ none))
    ∧ ((p.GetById id = (none, some (error.postNotFound { id := id }))
        ↔ ∀ x ∈ p.repository, x.Id ≠ id)
      ∧ ¬ ((p.GetById id).1 = none ∧ (p.GetById id).2 = none)
      ∧ ¬ ((p.GetById id).1 ≠ none ∧ (p.GetById id).2 ≠ none)) := by
  refine ⟨?_, ?_⟩
  · by_cases h : ∃ x ∈ c.repository, x.Id = id
    · obtain ⟨pre, x, post, _, _, _, hget⟩ := comment_GetById_hit c id h
      obtain ⟨y, hy, hyid⟩ := h
      rw [hget]
      refine ⟨⟨fun hne => by simp at hne, fun hall => absurd hyid (hall y hy)⟩, ?_, ?_⟩ <;> simp
    · have hall : ∀ x ∈ c.repository, x.Id ≠ id := fun x hx hxe => h ⟨x, hx, hxe⟩
      rw [comment_GetById_miss c id hall]
      refine ⟨⟨fun _ => hall, fun _ => rfl⟩, ?_, ?_⟩ <;> simp
  · by_cases h : ∃ x ∈ p.repository, x.Id = id
    · obtain ⟨pre, x, post, _, _, _, hget⟩ := post_GetById_hit p id h
      obtain ⟨y, hy, hyid⟩ := h
      rw [hget]
      refine ⟨⟨fun hne => by simp at hne, fun hall => absurd hyid (hall y hy)⟩, ?_, ?_⟩ <;> simp
    · have hall : ∀ x ∈ p.repository, x.Id ≠ id := fun x hx hxe => h ⟨x, hx, hxe⟩
      rw [post_GetById_miss p id hall]
      refine ⟨⟨fun _ => hall, fun _ => rfl⟩, ?_, ?_⟩ <;> simp

/-- C7: for both repositories and every stored sequence, one with repeated ids
included, when the id occurs in the sequence `GetById(id)` returns no error and
the entity it returns is the first entry, in insertion order, with that id:
the sequence splits as `pre ++ x :: post` with no entry of `pre` having the id,
and the result is `x`, equal in every field. -/
theorem getById_returns_first (c : CommentRepository) (p : PostRepository) (id : Nat) :
    ((∃ y ∈ c.repository, y.Id = id) →
        ∃ pre x post, c.repository = pre ++ x :: post ∧ x.Id = id
          ∧ (∀ y ∈ pre, y.Id ≠ id) ∧ c.GetById id = (some x, none))
    ∧ ((∃ y ∈ p.repository, y.Id = id) →
        ∃ pre x post, p.repository = pre ++ x :: post ∧ x.Id = id
          ∧ (∀ y ∈ pre, y.Id ≠ id) ∧ p.GetById id = (some x, none)) :=
  ⟨comment_GetById_hit c id, post_GetById_hit p id⟩

theorem getById_returns_first_witness :
    ((∃ y ∈ (CustomCommentRepository sampleRepeated).repository, y.Id = 3)
      ∧ ∃ pre x post, (CustomCommentRepository sampleRepeated).repository = pre ++ x :: post
          ∧ x.Id = 3 ∧ (∀ y ∈ pre, y.Id ≠ 3)
          ∧ (CustomCommentRepository sampleRepeated).GetById 3 = (some x, none))
    ∧ ((∃ y ∈ (CustomPostRepository samplePostsRepeated).repository, y.Id = 102)
      ∧ ∃ pre x post, (CustomPostRepository samplePostsRepeated).repository = pre ++ x :: post
          ∧ x.Id = 102 ∧ (∀ y ∈ pre, y.Id ≠ 102)
          ∧ (CustomPostRepository samplePostsRepeated).GetById 102 = (some x, none)) :=
  ⟨⟨by decide,
    (getById_returns_first (CustomCommentRepository sampleRepeated)
      (CustomPostRepository samplePostsRepeated) 3).1 (by decide)⟩,
   ⟨by decide,
    (getById_returns_first (CustomCommentRepository sampleRepeated)
      (CustomPostRepository samplePostsRepeated) 102).2 (by decide)⟩⟩

/-- C8: `GetAllByPostId(postId)` is the stored sequence filtered by
`PostId = postId`: exactly the matching comments, each once, in insertion order. -/
theorem getAllByPostId_eq_filter (c : CommentRepository) (postId : Nat) :
    c.GetAllByPostId postId = c.repository.filter (fun x => decide (x.PostId = postId)) := by
  unfold CommentRepository.GetAllByPostId
  split
  · rename_i hlen
    have hnil : c.repository = [] := List.length_eq_zero.mp (Nat.le_zero.mp hlen)
    simp [hnil]
  · rw [comment_getAllByPostIdLoop_eq]
    simp

end repository

/-! ## Decimal strings and `Atoi` -/

namespace strconv

theorem digitChar_isDigit (d : Nat) (h : d < 10) :
    ('0' ≤ Nat.digitChar d ∧ Nat.digitChar d ≤ '9')
      ∧ (Nat.digitChar d).toNat - '0'.toNat = d := by
  interval_cases d <;> decide

theorem parseDigits_digitChar (d : Nat) (h : d < 10) (cs : List Char) (n : Nat) :
    parseDigits (Nat.digitChar d :: cs) n = parseDigits cs (n * 10 + d) := by
  obtain ⟨hd, hv⟩ := digitChar_isDigit d h
  simp only [parseDigits, hd, and_self, if_true, hv]

/-- Reading back what `Nat.toDigitsCore` printed in front of `acc` continues
the reading of `acc` from the printed number. -/
theorem parseDigits_toDigitsCore (f n : Nat) (acc : List Char) (h : n < f) :
    parseDigits (Nat.toDigitsCore 10 f n acc) 0 = parseDigits acc n := by
  induction f generalizing n acc with
  | zero => exact absurd h (Nat.not_lt_zero n)
  | succ f ih =>
    have hmod : n % 10 < 10 := Nat.mod_lt n (by decide)
    by_cases hq : n / 10 = 0
    · have hlt : n < 10 := by omega
      have hn : n % 10 = n := Nat.mod_eq_of_lt hlt
      simp only [Nat.toDigitsCore, hq, if_true]
      rw [parseDigits_digitChar (n % 10) hmod, hn]
      simp
    · simp only [Nat.toDigitsCore, hq, if_false]
      rw [ih (n / 10) _ (by omega), parseDigits_digitChar (n % 10) hmod]
      congr 1
      omega

theorem parseDigits_toDigits (n : Nat) : parseDigits (Nat.toDigits 10 n) 0 = some n := by
  unfold Nat.toDigits
  rw [parseDigits_toDigitsCore (n + 1) n [] (Nat.lt_succ_self n)]
  rfl

/-- A string that reads as a number starts with a digit. -/
theorem parseDigits_head (c : Char) (cs : List Char) (m n : Nat)
    (h : parseDigits (c :: cs) m = some n) : '0' ≤ c ∧ c ≤ '9' := by
  by_contra hc
  simp [parseDigits, hc] at h

/-- On the decimal string of a natural number `n`, `Atoi` returns `n` when
`n ≤ 2^63 - 1` and an error otherwise. -/
theorem Atoi_toString (n : Nat) :
    Atoi (toString n) = if n < 2 ^ 63 then some (n : Int) else none := by
  have hdata : (toString n).data = Nat.toDigits 10 n := rfl
  have hparse := parseDigits_toDigits n
  unfold Atoi
  rw [hdata]
  cases hds : Nat.toDigits 10 n with
  | nil =>
    rw [hds] at hparse
    simp [parseDigits] at hparse
    subst hparse
    have : Nat.toDigits 10 0 = ['0'] := by decide
    rw [this] at hds
    simp at hds
  | cons c cs =>
    rw [hds] at hparse
    obtain ⟨h0, h9⟩ := parseDigits_head c cs 0 n hparse
    have hplus : c ≠ '+' := by
      intro hc
      subst hc
      exact absurd h0 (by decide)
    have hminus : c ≠ '-' := by
      intro hc
      subst hc
      exact absurd h0 (by decide)
    simp only [ParseInt, parseMagnitude, hplus, hminus, or_self, if_false, hparse,
      decide_False]
    by_cases hn : n < 2 ^ 63
    · have hge : ¬ n ≥ 2 ^ 63 := Nat.not_le.mpr hn
      rw [if_neg (fun hx => hge hx.2), if_neg (by simp), if_pos hn]
      simp
    · have hge : n ≥ 2 ^ 63 := Nat.le_of_not_lt hn
      rw [if_pos ⟨by simp, hge⟩, if_neg hn]

end strconv

/-! ## The GET handlers -/

namespace service

open model repository

/-- When `Atoi` rejects the path variable, `handleGetPostByPostId` answers 400
with the envelope naming the raw text, whatever the repositories hold. -/
theorem handleGetPostByPostId_of_parse_error (svc : RestApiService) (r : http.Request)
    (h : strconv.Atoi (mux.Vars r "id") = none) :
    svc.handleGetPostByPostId NewRecorder r
      = (svc, jsonRecorder 400
          (Payload.ack { Message := "wrong id path variable: " ++ mux.Vars r "id",
                         Status := 400 })) := by
  simp only [RestApiService.handleGetPostByPostId, h]
  rfl

/-- When `Atoi` accepts the path variable and the lookup fails,
`handleGetPostByPostId` answers 404 with the envelope naming the signed value. -/
theorem handleGetPostByPostId_of_not_found (svc : RestApiService) (r : http.Request)
    (v : Int) (e : error) (res : Option Post)
    (h : strconv.Atoi (mux.Vars r "id") = some v)
    (hget : svc.postRepository.GetById (uint64 v) = (res, some e)) :
    svc.handleGetPostByPostId NewRecorder r
      = (svc, jsonRecorder 404
          (Payload.ack { Message := "Post with id: " ++ toString v ++ " does not exist",
                         Status := 404 })) := by
  simp only [RestApiService.handleGetPostByPostId, h, hget]
  rfl

/-- When `Atoi` accepts the path variable and the lookup succeeds,
`handleGetPostByPostId` answers 200 with the bare post. -/
theorem handleGetPostByPostId_of_found (svc : RestApiService) (r : http.Request)
    (v : Int) (x : Post)
    (h : strconv.Atoi (mux.Vars r "id") = some v)
    (hget : svc.postRepository.GetById (uint64 v) = (some x, none)) :
    svc.handleGetPostByPostId NewRecorder r = (svc, jsonRecorder 200 (Payload.post x)) := by
  simp only [RestApiService.handleGetPostByPostId, h, hget]
  rfl

/-- When `Atoi` rejects the path variable, `handleGetCommentsByPostId` answers
400 with the envelope naming the raw text, whatever the repositories hold. -/
theorem handleGetCommentsByPostId_of_parse_error (svc : RestApiService) (r : http.Request)
    (h : strconv.Atoi (mux.Vars r "id") = none) :
    svc.handleGetCommentsByPostId NewRecorder r
      = (svc, jsonRecorder 400
          (Payload.ack { Message := "wrong id path variable: " ++ mux.Vars r "id",
                         Status := 400 })) := by
  simp only [RestApiService.handleGetCommentsByPostId, h]
  rfl

/-- When `Atoi` accepts the path variable, `handleGetCommentsByPostId` answers
200 with the comments of the post whose id is the converted value. -/
theorem handleGetCommentsByPostId_of_parsed (svc : RestApiService) (r : http.Request)
    (v : Int) (h : strconv.Atoi (mux.Vars r "id") = some v) :
    svc.handleGetCommentsByPostId NewRecorder r
      = (svc, jsonRecorder 200
          (Payload.comments (svc.commentRepository.GetAllByPostId (uint64 v)))) := by
  simp only [RestApiService.handleGetCommentsByPostId, h]
  rfl

/-- The response recorded by `jsonRecorder` carries `Content-Type: application/json`
and the status code it was given. -/
theorem jsonRecorder_contentType (code : Int) (body : Payload) :
    (jsonRecorder code body).contentType = "application/json"
      ∧ (jsonRecorder code body).Code = code
      ∧ (jsonRecorder code body).Body = [body] := by
  refine ⟨?_, rfl, rfl⟩
  simp [jsonRecorder, ResponseWriter.contentType, http.Header.Get]

/-- The path variable of `pathRequest`. -/
theorem vars_pathRequest (id : String) : mux.Vars (pathRequest id) "id" = id := by
  simp [mux.Vars, pathRequest]

/-- The conversion `uint64` is the identity on the values of `int` that are not negative. -/
theorem uint64_natCast (n : Nat) (h : n < 2 ^ 64) : uint64 (n : Int) = n := by
  unfold uint64
  have h1 : ((n : Int) % (2 : Int) ^ 64) = ((n % 2 ^ 64 : Nat) : Int) := by
    push_cast
    rfl
  rw [h1, Nat.mod_eq_of_lt h]
  simp

/-- For an id below `2^63` that a stored post has, `handleGetPostByPostId` on
the decimal string of the id answers 200 with the first stored post of that id. -/
theorem handleGetPostByPostId_decimal_small (svc : RestApiService) (n : Nat)
    (hn : n < 2 ^ 63) (h : ∃ y ∈ svc.postRepository.repository, y.Id = n) :
    ∃ pre x post, svc.postRepository.repository = pre ++ x :: post ∧ x.Id = n
      ∧ (∀ y ∈ pre, y.Id ≠ n)
      ∧ svc.handleGetPostByPostId NewRecorder (pathRequest (toString n))
          = (svc, jsonRecorder 200 (Payload.post x)) := by
  obtain ⟨pre, x, post, hs, hx, hpre, hget⟩ := post_GetById_hit svc.postRepository n h
  refine ⟨pre, x, post, hs, hx, hpre, ?_⟩
  have hparse : strconv.Atoi (mux.Vars (pathRequest (toString n)) "id") = some (n : Int) := by
    rw [vars_pathRequest, strconv.Atoi_toString, if_pos hn]
  have hlt : n < 2 ^ 64 := by omega
  apply handleGetPostByPostId_of_found svc _ (n : Int) x hparse
  rw [uint64_natCast n hlt]
  exact hget

/-- For an id from `2^63` on, both GET handlers answer the decimal string of
the id with 400, whatever the repositories hold. -/
theorem handlers_decimal_large (svc : RestApiService) (n : Nat) (hn : 2 ^ 63 ≤ n) :
    svc.handleGetPostByPostId NewRecorder (pathRequest (toString n))
      = (svc, jsonRecorder 400
          (Payload.ack { Message := "wrong id path variable: " ++ toString n, Status := 400 }))
    ∧ svc.handleGetCommentsByPostId NewRecorder (pathRequest (toString n))
      = (svc, jsonRecorder 400
          (Payload.ack { Message := "wrong id path variable: " ++ toString n, Status := 400 })) := by
  have hparse : strconv.Atoi (mux.Vars (pathRequest (toString n)) "id") = none := by
    rw [vars_pathRequest, strconv.Atoi_toString, if_neg (Nat.not_lt.mpr hn)]
  have h1 := handleGetPostByPostId_of_parse_error svc _ hparse
  have h2 := handleGetCommentsByPostId_of_parse_error svc _ hparse
  rw [vars_pathRequest] at h1 h2
  exact ⟨h1, h2⟩

/-- C9: the path variables `-5` and `+5` do not parse as unsigned integers, yet
neither handler answers them with 400: `Atoi` accepts the sign, `-5` is
converted to `2^64 - 5` and `+5` to `5`, and the repository is queried with
that id. `handleGetPostByPostId` returns the stored post of that id with 200,
or 404 when there is none, and `handleGetCommentsByPostId` answers 200. -/
theorem signed_path_variable_reaches_repository :
    strconv.ParseUint "-5" = none ∧ strconv.ParseUint "+5" = none
    ∧ strconv.Atoi "-5" = some (-5) ∧ uint64 (-5) = 18446744073709551611
    ∧ sampleService.handleGetPostByPostId NewRecorder (pathRequest "-5")
        = (sampleService, jsonRecorder 200 (Payload.post sampleWrappedPost))
    ∧ sampleService.handleGetPostByPostId NewRecorder (pathRequest "+5")
        = (sampleService, jsonRecorder 200 (Payload.post sampleFifthPost))
    ∧ NewRestApiService.handleGetPostByPostId NewRecorder (pathRequest "-5")
        = (NewRestApiService, jsonRecorder 404
            (Payload.ack { Message := "Post with id: -5 does not exist", Status := 404 }))
    ∧ sampleService.handleGetCommentsByPostId NewRecorder (pathRequest "-5")
        = (sampleService, jsonRecorder 200 (Payload.comments [sampleWrappedComment]))
    ∧ NewRestApiService.handleGetCommentsByPostId NewRecorder (pathRequest "+5")
        = (NewRestApiService, jsonRecorder 200 (Payload.comments [])) := by
  refine ⟨?_, ?_, ?_, ?_, ?_, ?_, ?_, ?_, ?_⟩ <;> decide

/-- C10: the post repository holds a post whose id is `2^63`, a value of
`uint64`, and `handleGetPostByPostId` called with the decimal string of that id
answers 400 with the envelope `wrong id path variable: 9223372036854775808`
instead of 200 with the post: `Atoi` reports a range error above `2^63 - 1`. -/
theorem large_id_post_is_bad_request :
    (9223372036854775808 : Nat) < 2 ^ 64
    ∧ toString (9223372036854775808 : Nat) = "9223372036854775808"
    ∧ (∃ x ∈ sampleLargeService.postRepository.repository, x.Id = 9223372036854775808)
    ∧ sampleLargeService.postRepository.GetById 9223372036854775808
        = (some sampleLargePost, none)
    ∧ sampleLargeService.handleGetPostByPostId NewRecorder
          (pathRequest (toString (9223372036854775808 : Nat)))
        = (sampleLargeService, jsonRecorder 400
            (Payload.ack { Message := "wrong id path variable: 9223372036854775808",
                           Status := 400 })) := by
  refine ⟨?_, ?_, ?_, ?_, ?_⟩ <;> decide

end service

/-! ## Range of `Atoi` -/

namespace strconv

/-- A value returned by `Atoi` is a 64-bit signed integer. -/
theorem Atoi_bounds (s : String) (v : Int) (h : Atoi s = some v) :
    -(2 : Int) ^ 63 ≤ v ∧ v < (2 : Int) ^ 63 := by
  unfold Atoi ParseInt at h
  cases hs : s.data with
  | nil => simp [hs] at h
  | cons c rest =>
    simp only [hs] at h
    cases hm : parseMagnitude (if c = '+' ∨ c = '-' then rest else c :: rest) with
    | none => simp [hm] at h
    | some un =>
      simp only [hm] at h
      by_cases hneg : c = '-'
      · simp only [hneg, decide_True, not_true_eq_false, false_and, if_false, true_and,
          if_true] at h
        split at h
        · exact absurd h (by simp)
        · rename_i hle
          have hv : v = -(un : Int) := by simpa using h.symm
          subst hv
          constructor <;> omega
      · simp only [hneg, decide_False, Bool.false_eq_true, not_false_eq_true, true_and,
          false_and, if_false] at h
        split at h
        · exact absurd h (by simp)
        · rename_i hlt
          have hv : v = (un : Int) := by simpa using h.symm
          subst hv
          constructor <;> omega

/-- The signed decimal of a natural number is its unsigned decimal. -/
theorem toString_natCast (n : Nat) : toString (n : Int) = toString n := rfl

end strconv

/-! ## The handlers, case by case -/

namespace service

open model repository

/-- The response recorded by `textRecorder` carries the plain-text content
type, the status code it was given and the line as its only chunk. -/
theorem textRecorder_contentType (code : Int) (text : String) :
    (textRecorder code text).contentType = "text/plain; charset=utf-8"
      ∧ (textRecorder code text).Code = code
      ∧ (textRecorder code text).Body = [Payload.text text] := by
  refine ⟨?_, rfl, rfl⟩
  simp [textRecorder, ResponseWriter.contentType, http.Header.Get]

/-- On a fresh recorder `http.Error` leaves the response of `textRecorder`. -/
theorem httpError_NewRecorder (text : String) (code : Int) :
    http.Error NewRecorder text code = textRecorder code text := by
  simp [http.Error, NewRecorder, textRecorder, ResponseWriter.HeaderSet,
    ResponseWriter.WriteHeader, ResponseWriter.Write, http.Header.Set, http.Header.Del]

/-- When the lookup of the parsed id fails, whatever the sign of the parsed
value, `handleGetPostByPostId` answers 404 and names the parsed value. -/
theorem handleGetPostByPostId_of_absent (svc : RestApiService) (r : http.Request) (v : Int)
    (h : strconv.Atoi (mux.Vars r "id") = some v)
    (habsent : ∀ x ∈ svc.postRepository.repository, x.Id ≠ uint64 v) :
    svc.handleGetPostByPostId NewRecorder r
      = (svc, jsonRecorder 404
          (Payload.ack { Message := "Post with id: " ++ toString v ++ " does not exist",
                         Status := 404 })) :=
  handleGetPostByPostId_of_not_found svc r v _ none h
    (post_GetById_miss svc.postRepository (uint64 v) habsent)

/-- When the body does not decode, `handleAddPost` answers through `http.Error`
with 400 and leaves the service as it was. -/
theorem handleAddPost_of_decode_error (decode : json.Decoder Post) (svc : RestApiService)
    (r : http.Request) (h : decode r.Body = none) :
    svc.handleAddPost decode NewRecorder r = (svc, textRecorder 400 "400 Bad Request") := by
  simp only [RestApiService.handleAddPost, h, httpError_NewRecorder]
  rfl

/-- When the decoded post has a stored id, `handleAddPost` answers through
`http.Error` with 500 and the text of the repository error, and leaves the
service as it was. -/
theorem handleAddPost_of_duplicate (decode : json.Decoder Post) (svc : RestApiService)
    (r : http.Request) (p : Post) (h : decode r.Body = some p)
    (hdup : ∃ x ∈ svc.postRepository.repository, x.Id = p.Id) :
    svc.handleAddPost decode NewRecorder r
      = (svc, textRecorder 500
          ("Error: Post with id: " ++ toString p.Id ++ " already exists in the repository!")) := by
  simp only [RestApiService.handleAddPost, h, post_Insert_hit svc.postRepository p hdup,
    httpError_NewRecorder]
  rfl

/-- When the decoded post has a fresh id, `handleAddPost` appends it and
answers 200 with the acknowledgement envelope. -/
theorem handleAddPost_of_fresh (decode : json.Decoder Post) (svc : RestApiService)
    (r : http.Request) (p : Post) (h : decode r.Body = some p)
    (hfresh : ¬ ∃ x ∈ svc.postRepository.repository, x.Id = p.Id) :
    svc.handleAddPost decode NewRecorder r
      = ({ svc with postRepository := { repository := svc.postRepository.repository ++ [p] } },
          jsonRecorder 200
            (Payload.ack { Message := "post id: " ++ toString p.Id ++ " successfully added",
                           Status := 200 })) := by
  simp only [RestApiService.handleAddPost, h, post_Insert_miss svc.postRepository p hfresh]
  rfl

/-- When the body does not decode, `handleAddComment` answers 400 with the
envelope and leaves the service as it was. -/
theorem handleAddComment_of_decode_error (decode : json.Decoder Comment)
    (svc : RestApiService) (r : http.Request) (h : decode r.Body = none) :
    svc.handleAddComment decode NewRecorder r
      = (svc, jsonRecorder 400
          (Payload.ack { Message := "could not deserialize comment json payload",
                         Status := 400 })) := by
  simp only [RestApiService.handleAddComment, h]
  rfl

/-- When the decoded comment has the id 0, `handleAddComment` answers 400 with
the same envelope and leaves the service as it was. -/
theorem handleAddComment_of_zero_id (decode : json.Decoder Comment)
    (svc : RestApiService) (r : http.Request) (c : Comment) (h : decode r.Body = some c)
    (hid : c.Id = 0) :
    svc.handleAddComment decode NewRecorder r
      = (svc, jsonRecorder 400
          (Payload.ack { Message := "could not deserialize comment json payload",
                         Status := 400 })) := by
  simp only [RestApiService.handleAddComment, h, hid, Nat.le_refl, if_true]
  rfl

/-- When the decoded comment has a positive id that is stored,
`handleAddComment` answers 400 with the already-exists envelope and leaves the
service as it was. -/
theorem handleAddComment_of_duplicate (decode : json.Decoder Comment)
    (svc : RestApiService) (r : http.Request) (c : Comment) (h : decode r.Body = some c)
    (hid : 0 < c.Id) (hdup : ∃ x ∈ svc.commentRepository.repository, x.Id = c.Id) :
    svc.handleAddComment decode NewRecorder r
      = (svc, jsonRecorder 400
          (Payload.ack { Message := "Comment with id: " ++ toString c.Id
                            ++ " already exists in the database",
                         Status := 400 })) := by
  have hpos : ¬ c.Id ≤ 0 := Nat.not_le.mpr hid
  simp only [RestApiService.handleAddComment, h, hpos, if_false,
    comment_Insert_hit svc.commentRepository c hdup]
  rfl

/-- When the decoded comment has a positive id that is not stored,
`handleAddComment` appends it and answers 200 with the acknowledgement envelope. -/
theorem handleAddComment_of_fresh (decode : json.Decoder Comment)
    (svc : RestApiService) (r : http.Request) (c : Comment) (h : decode r.Body = some c)
    (hid : 0 < c.Id) (hfresh : ¬ ∃ x ∈ svc.commentRepository.repository, x.Id = c.Id) :
    svc.handleAddComment decode NewRecorder r
      = ({ svc with
            commentRepository := { repository := svc.commentRepository.repository ++ [c] } },
          jsonRecorder 200
            (Payload.ack { Message := "comment id: " ++ toString c.Id ++ " successfully added",
                           Status := 200 })) := by
  have hpos : ¬ c.Id ≤ 0 := Nat.not_le.mpr hid
  simp only [RestApiService.handleAddComment, h, hpos, if_false,
    comment_Insert_miss svc.commentRepository c hfresh]
  rfl

/-- The comments `GetAllByPostId` returns, as a filter of the stored sequence. -/
theorem comment_GetAllByPostId_filter (c : CommentRepository) (id : Nat) :
    c.GetAllByPostId id = c.repository.filter (fun x => decide (x.PostId = id)) := by
  unfold CommentRepository.GetAllByPostId
  by_cases hlen : c.repository.length ≤ 0
  · have hnil : c.repository = [] := List.length_eq_zero.mp (Nat.le_zero.mp hlen)
    simp [hnil]
  · simp [hlen, comment_getAllByPostIdLoop_eq]

/-- For a post id below `2^63`, `handleGetCommentsByPostId` on the decimal
string of the id answers 200 with the stored comments of that post, in order. -/
theorem handleGetCommentsByPostId_decimal_small (svc : RestApiService) (n : Nat)
    (hn : n < 2 ^ 63) :
    svc.handleGetCommentsByPostId NewRecorder (pathRequest (toString n))
      = (svc, jsonRecorder 200
          (Payload.comments
            (svc.commentRepository.repository.filter (fun x => decide (x.PostId = n))))) := by
  have hparse : strconv.Atoi (mux.Vars (pathRequest (toString n)) "id") = some (n : Int) := by
    rw [vars_pathRequest, strconv.Atoi_toString, if_pos hn]
  have hlt : n < 2 ^ 64 := by omega
  rw [handleGetCommentsByPostId_of_parsed svc _ (n : Int) hparse, uint64_natCast n hlt,
    comment_GetAllByPostId_filter]

end service

/-! ## The shape of every response -/

namespace service

open model repository

/-- A response of `jsonRecorder` whose payload, when it is an envelope, carries
the status code of the response: every envelope in its body comes with
`Content-Type: application/json` and a status field equal to the status code. -/
theorem jsonRecorder_envelope (code : Int) (b : Payload)
    (hb : ∀ a, b = Payload.ack a → a.Status = code) :
    (∀ a, Payload.ack a ∈ (jsonRecorder code b).Body →
        (jsonRecorder code b).contentType = "application/json"
          ∧ (jsonRecorder code b).Code = a.Status)
      ∧ (jsonRecorder code b).contentType = "application/json" := by
  obtain ⟨hct, hcode, hbody⟩ := jsonRecorder_contentType code b
  refine ⟨?_, hct⟩
  intro a ha
  rw [hbody, List.mem_singleton] at ha
  exact ⟨hct, by rw [hcode, hb a ha.symm]⟩

/-- A response of `textRecorder` holds no envelope and is not sent as JSON. -/
theorem textRecorder_envelope (code : Int) (text : String) :
    (∀ a, Payload.ack a ∈ (textRecorder code text).Body →
        (textRecorder code text).contentType = "application/json"
          ∧ (textRecorder code text).Code = a.Status)
      ∧ (textRecorder code text).contentType ≠ "application/json" := by
  obtain ⟨hct, _, hbody⟩ := textRecorder_contentType code text
  refine ⟨?_, ?_⟩
  · intro a ha
    rw [hbody, List.mem_singleton] at ha
    exact absurd ha (by simp)
  · rw [hct]
    decide

/-- Every response of `handleGetPostByPostId` is a `jsonRecorder` whose
envelope, if any, carries the status code. -/
theorem handleGetPostByPostId_shape (svc : RestApiService) (r : http.Request) :
    ∃ code b, (svc.handleGetPostByPostId NewRecorder r).2 = jsonRecorder code b
      ∧ ∀ a, b = Payload.ack a → a.Status = code := by
  cases hparse : strconv.Atoi (mux.Vars r "id") with
  | none =>
    rw [handleGetPostByPostId_of_parse_error svc r hparse]
    exact ⟨400, _, rfl, fun a ha => by cases ha; rfl⟩
  | some v =>
    by_cases hx : ∃ x ∈ svc.postRepository.repository, x.Id = uint64 v
    · obtain ⟨_, x, _, _, _, _, hget⟩ := post_GetById_hit svc.postRepository (uint64 v) hx
      rw [handleGetPostByPostId_of_found svc r v x hparse hget]
      exact ⟨200, _, rfl, fun a ha => by cases ha⟩
    · have habsent : ∀ x ∈ svc.postRepository.repository, x.Id ≠ uint64 v :=
        fun x hxs hxe => hx ⟨x, hxs, hxe⟩
      rw [handleGetPostByPostId_of_absent svc r v hparse habsent]
      exact ⟨404, _, rfl, fun a ha => by cases ha; rfl⟩

/-- Every response of `handleGetCommentsByPostId` is a `jsonRecorder` whose
envelope, if any, carries the status code. -/
theorem handleGetCommentsByPostId_shape (svc : RestApiService) (r : http.Request) :
    ∃ code b, (svc.handleGetCommentsByPostId NewRecorder r).2 = jsonRecorder code b
      ∧ ∀ a, b = Payload.ack a → a.Status = code := by
  cases hparse : strconv.Atoi (mux.Vars r "id") with
  | none =>
    rw [handleGetCommentsByPostId_of_parse_error svc r hparse]
    exact ⟨400, _, rfl, fun a ha => by cases ha; rfl⟩
  | some v =>
    rw [handleGetCommentsByPostId_of_parsed svc r v hparse]
    exact ⟨200, _, rfl, fun a ha => by cases ha⟩

/-- Every response of `handleAddComment` is a `jsonRecorder` whose envelope
carries the status code. -/
theorem handleAddComment_shape (decode : json.Decoder Comment) (svc : RestApiService)
    (r : http.Request) :
    ∃ code b, (svc.handleAddComment decode NewRecorder r).2 = jsonRecorder code b
      ∧ ∀ a, b = Payload.ack a → a.Status = code := by
  cases hdec : decode r.Body with
  | none =>
    rw [handleAddComment_of_decode_error decode svc r hdec]
    exact ⟨400, _, rfl, fun a ha => by cases ha; rfl⟩
  | some c =>
    by_cases hid : c.Id = 0
    · rw [handleAddComment_of_zero_id decode svc r c hdec hid]
      exact ⟨400, _, rfl, fun a ha => by cases ha; rfl⟩
    · have hpos : 0 < c.Id := Nat.pos_of_ne_zero hid
      by_cases hx : ∃ x ∈ svc.commentRepository.repository, x.Id = c.Id
      · rw [handleAddComment_of_duplicate decode svc r c hdec hpos hx]
        exact ⟨400, _, rfl, fun a ha => by cases ha; rfl⟩
      · rw [handleAddComment_of_fresh decode svc r c hdec hpos hx]
        exact ⟨200, _, rfl, fun a ha => by cases ha; rfl⟩

/-- A response of `handleAddPost` is the acknowledgement in a `jsonRecorder`
when the body decodes to a post with a fresh id, and a `textRecorder` on the
two error paths. -/
theorem handleAddPost_shape (decode : json.Decoder Post) (svc : RestApiService)
    (r : http.Request) :
    ((¬ (decode r.Body = none
          ∨ ∃ p, decode r.Body = some p ∧ ∃ x ∈ svc.postRepository.repository, x.Id = p.Id))
        ∧ ∃ code b, (svc.handleAddPost decode NewRecorder r).2 = jsonRecorder code b
            ∧ ∀ a, b = Payload.ack a → a.Status = code)
    ∨ ((decode r.Body = none
          ∨ ∃ p, decode r.Body = some p ∧ ∃ x ∈ svc.postRepository.repository, x.Id = p.Id)
        ∧ ∃ code text, (svc.handleAddPost decode NewRecorder r).2 = textRecorder code text) := by
  cases hdec : decode r.Body with
  | none =>
    right
    rw [handleAddPost_of_decode_error decode svc r hdec]
    exact ⟨Or.inl rfl, 400, _, rfl⟩
  | some p =>
    by_cases hx : ∃ x ∈ svc.postRepository.repository, x.Id = p.Id
    · right
      rw [handleAddPost_of_duplicate decode svc r p hdec hx]
      exact ⟨Or.inr ⟨p, rfl, hx⟩, 500, _, rfl⟩
    · left
      rw [handleAddPost_of_fresh decode svc r p hdec hx]
      refine ⟨?_, 200, _, rfl, fun a ha => by cases ha; rfl⟩
      rintro (h | ⟨q, hq, hqx⟩)
      · exact absurd h (by simp)
      · cases hq
        exact hx hqx

end service

/-! ## The endpoints -/

namespace service

open model repository

/-- On the part of the path variables that `Atoi` accepts with a value `n` that
is not negative, hence below `2^63`: when the post repository, empty or not,
holds no post with id `n`, `handleGetPostByPostId` responds with status 404,
`Content-Type: application/json` and the envelope whose message is
`Post with id: <n> does not exist`, `<n>` being `n` in decimal, and whose
status is 404. The ids from `2^63` on and the signed strings are not covered. -/
theorem get_post_absent_is_not_found (svc : RestApiService) (r : http.Request) (n : Nat)
    (hparse : strconv.Atoi (mux.Vars r "id") = some (n : Int))
    (habsent : ∀ x ∈ svc.postRepository.repository, x.Id ≠ n) :
    svc.handleGetPostByPostId NewRecorder r
        = (svc, jsonRecorder 404
            (Payload.ack { Message := "Post with id: " ++ toString n ++ " does not exist",
                           Status := 404 }))
      ∧ (svc.handleGetPostByPostId NewRecorder r).2.Code = 404
      ∧ (svc.handleGetPostByPostId NewRecorder r).2.contentType = "application/json" := by
  have hlt : n < 2 ^ 64 := by
    have hb := (strconv.Atoi_bounds _ _ hparse).2
    omega
  have hid : uint64 (n : Int) = n := uint64_natCast n hlt
  have habsent2 : ∀ x ∈ svc.postRepository.repository, x.Id ≠ uint64 (n : Int) := by
    rw [hid]
    exact habsent
  have hres := handleGetPostByPostId_of_absent svc r (n : Int) hparse habsent2
  rw [strconv.toString_natCast] at hres
  rw [hres]
  exact ⟨rfl, rfl, (jsonRecorder_contentType _ _).1⟩

theorem get_post_absent_is_not_found_witness :
    strconv.Atoi (mux.Vars (pathRequest "111") "id") = some ((111 : Nat) : Int)
    ∧ (∀ x ∈ sampleService.postRepository.repository, x.Id ≠ 111)
    ∧ sampleService.handleGetPostByPostId NewRecorder (pathRequest "111")
        = (sampleService, jsonRecorder 404
            (Payload.ack { Message := "Post with id: " ++ toString 111 ++ " does not exist",
                           Status := 404 }))
    ∧ (sampleService.handleGetPostByPostId NewRecorder (pathRequest "111")).2.Code = 404
    ∧ (sampleService.handleGetPostByPostId NewRecorder (pathRequest "111")).2.contentType
        = "application/json" :=
  ⟨by decide, by decide,
   get_post_absent_is_not_found sampleService (pathRequest "111") 111 (by decide) (by decide)⟩

/-- C11: the path variable `9223372036854775808` is the decimal string of the
id `2^63`, a value of `uint64` that an unsigned parse reads as that id, and the
post repository, empty or holding other posts, has no post with that id; yet
`handleGetPostByPostId` answers 400 with the envelope
`wrong id path variable: 9223372036854775808` instead of 404 with
`Post with id: 9223372036854775808 does not exist`, `Atoi` reporting a range
error above `2^63 - 1`. On the path variable `-5` the handler looks up the id
`2^64 - 5` and, no post having it, answers 404 with a message that names `-5`
and not the id it looked up. -/
theorem absent_large_id_is_bad_request :
    strconv.ParseUint "9223372036854775808" = some 9223372036854775808
    ∧ (9223372036854775808 : Nat) < 2 ^ 64
    ∧ toString (9223372036854775808 : Nat) = "9223372036854775808"
    ∧ (∀ x ∈ NewRestApiService.postRepository.repository, x.Id ≠ 9223372036854775808)
    ∧ NewRestApiService.handleGetPostByPostId NewRecorder (pathRequest "9223372036854775808")
        = (NewRestApiService, jsonRecorder 400
            (Payload.ack { Message := "wrong id path variable: 9223372036854775808",
                           Status := 400 }))
    ∧ (∀ x ∈ sampleMixedService.postRepository.repository, x.Id ≠ 9223372036854775808)
    ∧ sampleMixedService.handleGetPostByPostId NewRecorder (pathRequest "9223372036854775808")
        = (sampleMixedService, jsonRecorder 400
            (Payload.ack { Message := "wrong id path variable: 9223372036854775808",
                           Status := 400 }))
    ∧ strconv.Atoi "-5" = some (-5)
    ∧ uint64 (-5) = 18446744073709551611
    ∧ (∀ x ∈ sampleMixedService.postRepository.repository, x.Id ≠ 18446744073709551611)
    ∧ sampleMixedService.handleGetPostByPostId NewRecorder (pathRequest "-5")
        = (sampleMixedService, jsonRecorder 404
            (Payload.ack { Message := "Post with id: -5 does not exist", Status := 404 })) := by
  refine ⟨?_, ?_, ?_, ?_, ?_, ?_, ?_, ?_, ?_, ?_, ?_⟩ <;> decide

/-- C12: the comment repository holds two comments on the post whose id is
`2^63`, a value of `uint64`, and `handleGetCommentsByPostId` called with the
decimal string of that id answers 400 with the envelope
`wrong id path variable: 9223372036854775808` instead of 200 with the array of
the two comments: `Atoi` reports a range error above `2^63 - 1`. -/
theorem large_id_comments_is_bad_request :
    (9223372036854775808 : Nat) < 2 ^ 64
    ∧ toString (9223372036854775808 : Nat) = "9223372036854775808"
    ∧ sampleLargeCommentService.commentRepository.GetAllByPostId 9223372036854775808
        = [ { Id := 123, PostId := 9223372036854775808, Comment := "abc",
              Author := "cool author", CreationDate := { sec := 1537099200, nsec := 0 } },
            { Id := 543, PostId := 9223372036854775808, Comment := "ghi",
              Author := "cool author3", CreationDate := { sec := 1537099200, nsec := 0 } } ]
    ∧ sampleLargeCommentService.handleGetCommentsByPostId NewRecorder
          (pathRequest (toString (9223372036854775808 : Nat)))
        = (sampleLargeCommentService, jsonRecorder 400
            (Payload.ack { Message := "wrong id path variable: 9223372036854775808",
                           Status := 400 })) := by
  refine ⟨?_, ?_, ?_, ?_⟩ <;> decide

/-- C13: when the request body decodes to a comment `c` with `c.Id > 0` and the
comment repository holds no comment with the id of `c`, `handleAddComment`
responds with status 200, `Content-Type: application/json` and the envelope
`comment id: <c.Id> successfully added` with status 200, and the comment
repository afterwards is the previous sequence with `c` appended; the post
repository is as before. -/
theorem add_comment_fresh_is_stored (decode : json.Decoder Comment) (svc : RestApiService)
    (r : http.Request) (c : Comment) (hdec : decode r.Body = some c) (hid : c.Id > 0)
    (hfresh : ∀ x ∈ svc.commentRepository.repository, x.Id ≠ c.Id) :
    (svc.handleAddComment decode NewRecorder r).2
        = jsonRecorder 200
            (Payload.ack { Message := "comment id: " ++ toString c.Id ++ " successfully added",
                           Status := 200 })
      ∧ (svc.handleAddComment decode NewRecorder r).2.Code = 200
      ∧ (svc.handleAddComment decode NewRecorder r).2.contentType = "application/json"
      ∧ (svc.handleAddComment decode NewRecorder r).1.commentRepository.repository
          = svc.commentRepository.repository ++ [c]
      ∧ (svc.handleAddComment decode NewRecorder r).1.postRepository = svc.postRepository := by
  have hx : ¬ ∃ x ∈ svc.commentRepository.repository, x.Id = c.Id :=
    fun ⟨x, hxs, hxe⟩ => hfresh x hxs hxe
  rw [handleAddComment_of_fresh decode svc r c hdec hid hx]
  exact ⟨rfl, rfl, (jsonRecorder_contentType _ _).1, rfl, rfl⟩

theorem add_comment_fresh_is_stored_witness :
    sampleDecodeComment (bodyRequest sampleValidBody).Body = some sampleValidComment
    ∧ sampleValidComment.Id > 0
    ∧ (∀ x ∈ sampleMixedService.commentRepository.repository, x.Id ≠ sampleValidComment.Id)
    ∧ (sampleMixedService.handleAddComment sampleDecodeComment NewRecorder
          (bodyRequest sampleValidBody)).2
        = jsonRecorder 200
            (Payload.ack
              { Message := "comment id: " ++ toString sampleValidComment.Id
                  ++ " successfully added",
                Status := 200 })
    ∧ (sampleMixedService.handleAddComment sampleDecodeComment NewRecorder
          (bodyRequest sampleValidBody)).2.Code = 200
    ∧ (sampleMixedService.handleAddComment sampleDecodeComment NewRecorder
          (bodyRequest sampleValidBody)).2.contentType = "application/json"
    ∧ (sampleMixedService.handleAddComment sampleDecodeComment NewRecorder
          (bodyRequest sampleValidBody)).1.commentRepository.repository
        = sampleMixedService.commentRepository.repository ++ [sampleValidComment]
    ∧ (sampleMixedService.handleAddComment sampleDecodeComment NewRecorder
          (bodyRequest sampleValidBody)).1.postRepository = sampleMixedService.postRepository :=
  ⟨by decide, by decide, by decide,
   add_comment_fresh_is_stored sampleDecodeComment sampleMixedService (bodyRequest sampleValidBody)
     sampleValidComment (by decide) (by decide) (by decide)⟩

/-- C14: when the request body fails to decode as a comment, or decodes to a
comment whose id is 0, `handleAddComment` responds with status 400,
`Content-Type: application/json` and the envelope
`could not deserialize comment json payload` with status 400, and the service,
its comment repository included, is as before: `Insert` is not reached. -/
theorem add_comment_undecodable_is_bad_request (decode : json.Decoder Comment)
    (svc : RestApiService) (r : http.Request)
    (h : decode r.Body = none ∨ ∃ c, decode r.Body = some c ∧ c.Id = 0) :
    svc.handleAddComment decode NewRecorder r
        = (svc, jsonRecorder 400
            (Payload.ack { Message := "could not deserialize comment json payload",
                           Status := 400 }))
      ∧ (svc.handleAddComment decode NewRecorder r).2.Code = 400
      ∧ (svc.handleAddComment decode NewRecorder r).2.contentType = "application/json"
      ∧ (svc.handleAddComment decode NewRecorder r).1.commentRepository
          = svc.commentRepository := by
  have hres : svc.handleAddComment decode NewRecorder r
      = (svc, jsonRecorder 400
          (Payload.ack { Message := "could not deserialize comment json payload",
                         Status := 400 })) := by
    rcases h with h | ⟨c, hc, hid⟩
    · exact handleAddComment_of_decode_error decode svc r h
    · exact handleAddComment_of_zero_id decode svc r c hc hid
  rw [hres]
  exact ⟨rfl, rfl, (jsonRecorder_contentType _ _).1, rfl⟩

theorem add_comment_undecodable_is_bad_request_witness :
    (sampleDecodeComment (bodyRequest "invalidJson").Body = none
      ∧ sampleCommentService.handleAddComment sampleDecodeComment NewRecorder
            (bodyRequest "invalidJson")
          = (sampleCommentService, jsonRecorder 400
              (Payload.ack { Message := "could not deserialize comment json payload",
                             Status := 400 })))
    ∧ (sampleDecodeComment (bodyRequest "\x7b\x7d").Body = some sampleZeroComment
      ∧ sampleZeroComment.Id = 0
      ∧ sampleCommentService.handleAddComment sampleDecodeComment NewRecorder
            (bodyRequest "\x7b\x7d")
          = (sampleCommentService, jsonRecorder 400
              (Payload.ack { Message := "could not deserialize comment json payload",
                             Status := 400 }))) :=
  ⟨⟨by decide,
    (add_comment_undecodable_is_bad_request sampleDecodeComment sampleCommentService
      (bodyRequest "invalidJson") (Or.inl (by decide))).1⟩,
   ⟨by decide, by decide,
    (add_comment_undecodable_is_bad_request sampleDecodeComment sampleCommentService
      (bodyRequest "\x7b\x7d") (Or.inr ⟨sampleZeroComment, by decide, by decide⟩)).1⟩⟩

/-- C15: the body `sampleIncompleteBody` is a JSON object that misses the
members `PostId`, `Comment`, `Author` and `CreationDate`; it decodes to a
comment with id 5, and `handleAddComment` does not treat it as incomplete: it
answers 200 with the envelope `comment id: 5 successfully added` and stores
the comment with zero values in the four missing fields. -/
theorem incomplete_comment_is_stored :
    sampleDecodeComment (bodyRequest sampleIncompleteBody).Body = some sampleIncompleteComment
    ∧ NewRestApiService.handleAddComment sampleDecodeComment NewRecorder
          (bodyRequest sampleIncompleteBody)
        = ({ postRepository := NewPostRepository,
             commentRepository := { repository := [sampleIncompleteComment] } },
            jsonRecorder 200
              (Payload.ack { Message := "comment id: 5 successfully added", Status := 200 })) := by
  refine ⟨?_, ?_⟩ <;> decide

end service

namespace service

open model repository

/-- C16: when the request body decodes to a comment `c` with `c.Id > 0` and the
comment repository already holds a comment with the id of `c`,
`handleAddComment` responds with status 400, `Content-Type: application/json`
and the envelope `Comment with id: <c.Id> already exists in the database` with
status 400, and the service, its comment repository included, is as before. -/
theorem add_comment_duplicate_is_bad_request (decode : json.Decoder Comment)
    (svc : RestApiService) (r : http.Request) (c : Comment)
    (hdec : decode r.Body = some c) (hid : c.Id > 0)
    (hdup : ∃ x ∈ svc.commentRepository.repository, x.Id = c.Id) :
    svc.handleAddComment decode NewRecorder r
        = (svc, jsonRecorder 400
            (Payload.ack { Message := "Comment with id: " ++ toString c.Id
                              ++ " already exists in the database",
                           Status := 400 }))
      ∧ (svc.handleAddComment decode NewRecorder r).2.Code = 400
      ∧ (svc.handleAddComment decode NewRecorder r).2.contentType = "application/json"
      ∧ (svc.handleAddComment decode NewRecorder r).1.commentRepository
          = svc.commentRepository := by
  rw [handleAddComment_of_duplicate decode svc r c hdec hid hdup]
  exact ⟨rfl, rfl, (jsonRecorder_contentType _ _).1, rfl⟩

theorem add_comment_duplicate_is_bad_request_witness :
    sampleDecodeComment (bodyRequest sampleValidBody).Body = some sampleValidComment
    ∧ sampleValidComment.Id > 0
    ∧ (∃ x ∈ sampleCommentService.commentRepository.repository, x.Id = sampleValidComment.Id)
    ∧ sampleCommentService.handleAddComment sampleDecodeComment NewRecorder
          (bodyRequest sampleValidBody)
        = (sampleCommentService, jsonRecorder 400
            (Payload.ack
              { Message := "Comment with id: " ++ toString sampleValidComment.Id
                  ++ " already exists in the database",
                Status := 400 }))
    ∧ (sampleCommentService.handleAddComment sampleDecodeComment NewRecorder
          (bodyRequest sampleValidBody)).2.Code = 400
    ∧ (sampleCommentService.handleAddComment sampleDecodeComment NewRecorder
          (bodyRequest sampleValidBody)).2.contentType = "application/json"
    ∧ (sampleCommentService.handleAddComment sampleDecodeComment NewRecorder
          (bodyRequest sampleValidBody)).1.commentRepository
        = sampleCommentService.commentRepository :=
  ⟨by decide, by decide, by decide,
   add_comment_duplicate_is_bad_request sampleDecodeComment sampleCommentService
     (bodyRequest sampleValidBody) sampleValidComment (by decide) (by decide) (by decide)⟩

/-- C17: when the request body decodes to a post `p`, whatever its id, and the
post repository holds no post with the id of `p`, `handleAddPost` responds
with status 200, `Content-Type: application/json` and the envelope
`post id: <p.Id> successfully added` with status 200, and the post repository
afterwards is the previous sequence with `p` appended; the comment repository
is as before. -/
theorem add_post_fresh_is_stored (decode : json.Decoder Post) (svc : RestApiService)
    (r : http.Request) (p : Post) (hdec : decode r.Body = some p)
    (hfresh : ∀ x ∈ svc.postRepository.repository, x.Id ≠ p.Id) :
    (svc.handleAddPost decode NewRecorder r).2
        = jsonRecorder 200
            (Payload.ack { Message := "post id: " ++ toString p.Id ++ " successfully added",
                           Status := 200 })
      ∧ (svc.handleAddPost decode NewRecorder r).2.Code = 200
      ∧ (svc.handleAddPost decode NewRecorder r).2.contentType = "application/json"
      ∧ (svc.handleAddPost decode NewRecorder r).1.postRepository.repository
          = svc.postRepository.repository ++ [p]
      ∧ (svc.handleAddPost decode NewRecorder r).1.commentRepository
          = svc.commentRepository := by
  have hx : ¬ ∃ x ∈ svc.postRepository.repository, x.Id = p.Id :=
    fun ⟨x, hxs, hxe⟩ => hfresh x hxs hxe
  rw [handleAddPost_of_fresh decode svc r p hdec hx]
  exact ⟨rfl, rfl, (jsonRecorder_contentType _ _).1, rfl, rfl⟩

theorem add_post_fresh_is_stored_witness :
    sampleDecodePost (bodyRequest sampleValidPostBody).Body = some sampleValidPost
    ∧ (∀ x ∈ sampleMixedService.postRepository.repository, x.Id ≠ sampleValidPost.Id)
    ∧ (sampleMixedService.handleAddPost sampleDecodePost NewRecorder
          (bodyRequest sampleValidPostBody)).2
        = jsonRecorder 200
            (Payload.ack
              { Message := "post id: " ++ toString sampleValidPost.Id ++ " successfully added",
                Status := 200 })
    ∧ (sampleMixedService.handleAddPost sampleDecodePost NewRecorder
          (bodyRequest sampleValidPostBody)).2.Code = 200
    ∧ (sampleMixedService.handleAddPost sampleDecodePost NewRecorder
          (bodyRequest sampleValidPostBody)).2.contentType = "application/json"
    ∧ (sampleMixedService.handleAddPost sampleDecodePost NewRecorder
          (bodyRequest sampleValidPostBody)).1.postRepository.repository
        = sampleMixedService.postRepository.repository ++ [sampleValidPost]
    ∧ (sampleMixedService.handleAddPost sampleDecodePost NewRecorder
          (bodyRequest sampleValidPostBody)).1.commentRepository
        = sampleMixedService.commentRepository :=
  ⟨by decide, by decide,
   add_post_fresh_is_stored sampleDecodePost sampleMixedService
     (bodyRequest sampleValidPostBody) sampleValidPost (by decide) (by decide)⟩

/-- C18: when the request body decodes to a post `p` and the post repository
already holds a post with the id of `p`, `handleAddPost` responds with status
500 and, as plain text and not as an envelope, the message of the repository
error, `Error: Post with id: <p.Id> already exists in the repository!`; the
service, its post repository included, is as before. -/
theorem add_post_duplicate_is_server_error (decode : json.Decoder Post)
    (svc : RestApiService) (r : http.Request) (p : Post)
    (hdec : decode r.Body = some p)
    (hdup : ∃ x ∈ svc.postRepository.repository, x.Id = p.Id) :
    svc.handleAddPost decode NewRecorder r
        = (svc, textRecorder 500 (error.postAlreadyExists { id := p.Id }).Error)
      ∧ (error.postAlreadyExists { id := p.Id }).Error
          = "Error: Post with id: " ++ toString p.Id ++ " already exists in the repository!"
      ∧ (svc.handleAddPost decode NewRecorder r).2.Code = 500
      ∧ (svc.handleAddPost decode NewRecorder r).2.Body
          = [Payload.text
              ("Error: Post with id: " ++ toString p.Id ++ " already exists in the repository!")]
      ∧ (svc.handleAddPost decode NewRecorder r).2.contentType = "text/plain; charset=utf-8"
      ∧ (svc.handleAddPost decode NewRecorder r).1.postRepository = svc.postRepository := by
  rw [handleAddPost_of_duplicate decode svc r p hdec hdup]
  exact ⟨rfl, rfl, rfl, rfl, (textRecorder_contentType _ _).1, rfl⟩

theorem add_post_duplicate_is_server_error_witness :
    sampleDecodePost (bodyRequest sampleValidPostBody).Body = some sampleValidPost
    ∧ (∃ x ∈ samplePostService.postRepository.repository, x.Id = sampleValidPost.Id)
    ∧ (samplePostService.handleAddPost sampleDecodePost NewRecorder
          (bodyRequest sampleValidPostBody)).2.Code = 500
    ∧ (samplePostService.handleAddPost sampleDecodePost NewRecorder
          (bodyRequest sampleValidPostBody)).2.Body
        = [Payload.text
            ("Error: Post with id: " ++ toString sampleValidPost.Id
              ++ " already exists in the repository!")]
    ∧ (samplePostService.handleAddPost sampleDecodePost NewRecorder
          (bodyRequest sampleValidPostBody)).2.contentType = "text/plain; charset=utf-8"
    ∧ (samplePostService.handleAddPost sampleDecodePost NewRecorder
          (bodyRequest sampleValidPostBody)).1.postRepository
        = samplePostService.postRepository :=
  ⟨by decide, by decide,
   (add_post_duplicate_is_server_error sampleDecodePost samplePostService
     (bodyRequest sampleValidPostBody) sampleValidPost (by decide) (by decide)).2.2⟩

/-- C19: when the request body fails to decode as a post, `handleAddPost`
responds with status 400 and the text `400 Bad Request` as a plain-text line,
not as an envelope, and the service, its post repository included, is as
before. -/
theorem add_post_undecodable_is_bad_request (decode : json.Decoder Post)
    (svc : RestApiService) (r : http.Request) (hdec : decode r.Body = none) :
    svc.handleAddPost decode NewRecorder r = (svc, textRecorder 400 "400 Bad Request")
      ∧ (svc.handleAddPost decode NewRecorder r).2.Code = 400
      ∧ (svc.handleAddPost decode NewRecorder r).2.Body = [Payload.text "400 Bad Request"]
      ∧ (svc.handleAddPost decode NewRecorder r).2.contentType = "text/plain; charset=utf-8"
      ∧ (svc.handleAddPost decode NewRecorder r).1.postRepository = svc.postRepository := by
  rw [handleAddPost_of_decode_error decode svc r hdec]
  exact ⟨rfl, rfl, rfl, (textRecorder_contentType _ _).1, rfl⟩

theorem add_post_undecodable_is_bad_request_witness :
    sampleDecodePost (bodyRequest "invalidJson").Body = none
    ∧ samplePostService.handleAddPost sampleDecodePost NewRecorder (bodyRequest "invalidJson")
        = (samplePostService, textRecorder 400 "400 Bad Request")
    ∧ (samplePostService.handleAddPost sampleDecodePost NewRecorder
          (bodyRequest "invalidJson")).2.Code = 400
    ∧ (samplePostService.handleAddPost sampleDecodePost NewRecorder
          (bodyRequest "invalidJson")).2.Body = [Payload.text "400 Bad Request"]
    ∧ (samplePostService.handleAddPost sampleDecodePost NewRecorder
          (bodyRequest "invalidJson")).2.contentType = "text/plain; charset=utf-8"
    ∧ (samplePostService.handleAddPost sampleDecodePost NewRecorder
          (bodyRequest "invalidJson")).1.postRepository = samplePostService.postRepository :=
  ⟨by decide,
   add_post_undecodable_is_bad_request sampleDecodePost samplePostService
     (bodyRequest "invalidJson") (by decide)⟩

/-- C20: for every request and every state of the repositories, a response of
any of the four handlers that holds a `message, status` envelope is sent with
`Content-Type: application/json` and a status code equal to the status field
of the envelope. The responses of `handleGetPostByPostId`,
`handleGetCommentsByPostId` and `handleAddComment` always carry that content
type; a response of `handleAddPost` lacks it exactly on its two plain-text
error paths, the body that does not decode and the id that is already stored. -/
theorem envelope_status_matches_code (decodePost : json.Decoder Post)
    (decodeComment : json.Decoder Comment) (svc : RestApiService) (r : http.Request) :
    ((∀ a, Payload.ack a ∈ (svc.handleGetPostByPostId NewRecorder r).2.Body →
          (svc.handleGetPostByPostId NewRecorder r).2.contentType = "application/json"
            ∧ (svc.handleGetPostByPostId NewRecorder r).2.Code = a.Status)
        ∧ (svc.handleGetPostByPostId NewRecorder r).2.contentType = "application/json")
    ∧ ((∀ a, Payload.ack a ∈ (svc.handleGetCommentsByPostId NewRecorder r).2.Body →
          (svc.handleGetCommentsByPostId NewRecorder r).2.contentType = "application/json"
            ∧ (svc.handleGetCommentsByPostId NewRecorder r).2.Code = a.Status)
        ∧ (svc.handleGetCommentsByPostId NewRecorder r).2.contentType = "application/json")
    ∧ ((∀ a, Payload.ack a ∈ (svc.handleAddComment decodeComment NewRecorder r).2.Body →
          (svc.handleAddComment decodeComment NewRecorder r).2.contentType = "application/json"
            ∧ (svc.handleAddComment decodeComment NewRecorder r).2.Code = a.Status)
        ∧ (svc.handleAddComment decodeComment NewRecorder r).2.contentType
            = "application/json")
    ∧ ((∀ a, Payload.ack a ∈ (svc.handleAddPost decodePost NewRecorder r).2.Body →
          (svc.handleAddPost decodePost NewRecorder r).2.contentType = "application/json"
            ∧ (svc.handleAddPost decodePost NewRecorder r).2.Code = a.Status)
        ∧ ((svc.handleAddPost decodePost NewRecorder r).2.contentType ≠ "application/json"
            ↔ (decodePost r.Body = none
                ∨ ∃ p, decodePost r.Body = some p
                    ∧ ∃ x ∈ svc.postRepository.repository, x.Id = p.Id))) := by
  refine ⟨?_, ?_, ?_, ?_⟩
  · obtain ⟨code, b, hw, hb⟩ := handleGetPostByPostId_shape svc r
    rw [hw]
    exact jsonRecorder_envelope code b hb
  · obtain ⟨code, b, hw, hb⟩ := handleGetCommentsByPostId_shape svc r
    rw [hw]
    exact jsonRecorder_envelope code b hb
  · obtain ⟨code, b, hw, hb⟩ := handleAddComment_shape decodeComment svc r
    rw [hw]
    exact jsonRecorder_envelope code b hb
  · rcases handleAddPost_shape decodePost svc r with ⟨hok, code, b, hw, hb⟩ | ⟨herr, code, text, hw⟩
    · rw [hw]
      obtain ⟨henv, hct⟩ := jsonRecorder_envelope code b hb
      exact ⟨henv, ⟨fun hne => absurd hct hne, fun h => absurd h hok⟩⟩
    · rw [hw]
      obtain ⟨henv, hct⟩ := textRecorder_envelope code text
      exact ⟨henv, ⟨fun _ => herr, fun _ => hct⟩⟩

end service

/-! ## Lookups after an insert -/

namespace repository

open model

/-- The loop of `CommentRepository.GetById` on a store followed by more
entries: what it finds in the store, else what it finds in the rest. -/
theorem comment_getByIdLoop_append (id : Nat) (s t : List Comment) :
    CommentRepository.getByIdLoop id (s ++ t)
      = match CommentRepository.getByIdLoop id s with
        | some x => some x
        | none => CommentRepository.getByIdLoop id t := by
  induction s with
  | nil => simp [CommentRepository.getByIdLoop]
  | cons a rest ih =>
    by_cases ha : a.Id = id
    · simp [CommentRepository.getByIdLoop, ha]
    · simp [CommentRepository.getByIdLoop, ha, ih]

/-- The loop of `PostRepository.GetById` on a store followed by more entries:
what it finds in the store, else what it finds in the rest. -/
theorem post_getByIdLoop_append (id : Nat) (s t : List Post) :
    PostRepository.getByIdLoop id (s ++ t)
      = match PostRepository.getByIdLoop id s with
        | some x => some x
        | none => PostRepository.getByIdLoop id t := by
  induction s with
  | nil => simp [PostRepository.getByIdLoop]
  | cons a rest ih =>
    by_cases ha : a.Id = id
    · simp [PostRepository.getByIdLoop, ha]
    · simp [PostRepository.getByIdLoop, ha, ih]

/-- The guard on the length in `CommentRepository.GetById` returns what the
loop would return on the empty store. -/
theorem comment_GetById_eq_loop (c : CommentRepository) (id : Nat) :
    c.GetById id
      = match CommentRepository.getByIdLoop id c.repository with
        | some i => (some i, none)
        | none => (none, some (error.commentNotFound { id := id })) := by
  unfold CommentRepository.GetById
  by_cases hlen : c.repository.length ≤ 0
  · have hnil : c.repository = [] := List.length_eq_zero.mp (Nat.le_zero.mp hlen)
    simp [hnil, CommentRepository.getByIdLoop]
  · simp [hlen]

/-- The guard on the length in `PostRepository.GetById` returns what the loop
would return on the empty store. -/
theorem post_GetById_eq_loop (c : PostRepository) (id : Nat) :
    c.GetById id
      = match PostRepository.getByIdLoop id c.repository with
        | some i => (some i, none)
        | none => (none, some (error.postNotFound { id := id })) := by
  unfold PostRepository.GetById
  by_cases hlen : c.repository.length ≤ 0
  · have hnil : c.repository = [] := List.length_eq_zero.mp (Nat.le_zero.mp hlen)
    simp [hnil, PostRepository.getByIdLoop]
  · simp [hlen]

/-- An `Insert` on a comment repository that returns no error found the id free. -/
theorem comment_Insert_ok_fresh (c : CommentRepository) (e : Comment)
    (h : (c.Insert e).2 = none) : ¬ ∃ x ∈ c.repository, x.Id = e.Id := by
  intro hx
  rw [comment_Insert_hit c e hx] at h
  exact absurd h (by simp)

/-- An `Insert` on a post repository that returns no error found the id free. -/
theorem post_Insert_ok_fresh (c : PostRepository) (e : Post)
    (h : (c.Insert e).2 = none) : ¬ ∃ x ∈ c.repository, x.Id = e.Id := by
  intro hx
  rw [post_Insert_hit c e hx] at h
  exact absurd h (by simp)

/-- An `Insert` on a comment repository that returns an error found the id taken. -/
theorem comment_Insert_err_taken (c : CommentRepository) (e : Comment)
    (h : (c.Insert e).2 ≠ none) : ∃ x ∈ c.repository, x.Id = e.Id := by
  by_contra hx
  rw [comment_Insert_miss c e hx] at h
  exact h rfl

/-- After a successful `Insert` of `e`, `CommentRepository.GetById` finds `e`
under its id and answers every other id as before. -/
theorem comment_GetById_after_Insert (c : CommentRepository) (e : Comment)
    (h : (c.Insert e).2 = none) :
    (c.Insert e).1.GetById e.Id = (some e, none)
      ∧ ∀ id, id ≠ e.Id → (c.Insert e).1.GetById id = c.GetById id := by
  have hx := comment_Insert_ok_fresh c e h
  have hall : ∀ x ∈ c.repository, x.Id ≠ e.Id := fun x hxs hxe => hx ⟨x, hxs, hxe⟩
  rw [comment_Insert_miss c e hx]
  refine ⟨?_, ?_⟩
  · rw [comment_GetById_eq_loop, comment_getByIdLoop_append,
      comment_getByIdLoop_miss e.Id c.repository hall]
    simp [CommentRepository.getByIdLoop]
  · intro id hid
    have hne : ¬ e.Id = id := fun heq => hid heq.symm
    rw [comment_GetById_eq_loop, comment_GetById_eq_loop c id, comment_getByIdLoop_append]
    cases hloop : CommentRepository.getByIdLoop id c.repository with
    | some x => rfl
    | none => simp [CommentRepository.getByIdLoop, hne]

/-- After a successful `Insert` of `e`, `PostRepository.GetById` finds `e`
under its id and answers every other id as before. -/
theorem post_GetById_after_Insert (c : PostRepository) (e : Post)
    (h : (c.Insert e).2 = none) :
    (c.Insert e).1.GetById e.Id = (some e, none)
      ∧ ∀ id, id ≠ e.Id → (c.Insert e).1.GetById id = c.GetById id := by
  have hx := post_Insert_ok_fresh c e h
  have hall : ∀ x ∈ c.repository, x.Id ≠ e.Id := fun x hxs hxe => hx ⟨x, hxs, hxe⟩
  rw [post_Insert_miss c e hx]
  refine ⟨?_, ?_⟩
  · rw [post_GetById_eq_loop, post_getByIdLoop_append,
      post_getByIdLoop_miss e.Id c.repository hall]
    simp [PostRepository.getByIdLoop]
  · intro id hid
    have hne : ¬ e.Id = id := fun heq => hid heq.symm
    rw [post_GetById_eq_loop, post_GetById_eq_loop c id, post_getByIdLoop_append]
    cases hloop : PostRepository.getByIdLoop id c.repository with
    | some x => rfl
    | none => simp [PostRepository.getByIdLoop, hne]

/-- C23: for both repositories, every stored sequence and every entity `e`
for which `Insert(e)` returns no error, `GetById(e.Id)` on the resulting
repository returns `e` with no error, and for every id other than `e.Id`
`GetById(id)` returns on the resulting repository what it returned before the
insert, the same entity or the same not-found error. -/
theorem insert_then_getById (c : CommentRepository) (e : Comment)
    (p : PostRepository) (q : Post) :
    ((c.Insert e).2 = none →
        (c.Insert e).1.GetById e.Id = (some e, none)
          ∧ ∀ id, id ≠ e.Id → (c.Insert e).1.GetById id = c.GetById id)
    ∧ ((p.Insert q).2 = none →
        (p.Insert q).1.GetById q.Id = (some q, none)
          ∧ ∀ id, id ≠ q.Id → (p.Insert q).1.GetById id = p.GetById id) :=
  ⟨comment_GetById_after_Insert c e, post_GetById_after_Insert p q⟩

theorem insert_then_getById_witness :
    (((CustomCommentRepository sampleComments).Insert sampleFresh).2 = none
      ∧ ((CustomCommentRepository sampleComments).Insert sampleFresh).1.GetById sampleFresh.Id
          = (some sampleFresh, none)
      ∧ ∀ id, id ≠ sampleFresh.Id →
          ((CustomCommentRepository sampleComments).Insert sampleFresh).1.GetById id
            = (CustomCommentRepository sampleComments).GetById id)
    ∧ (((CustomPostRepository samplePosts).Insert samplePostFresh).2 = none
      ∧ ((CustomPostRepository samplePosts).Insert samplePostFresh).1.GetById samplePostFresh.Id
          = (some samplePostFresh, none)
      ∧ ∀ id, id ≠ samplePostFresh.Id →
          ((CustomPostRepository samplePosts).Insert samplePostFresh).1.GetById id
            = (CustomPostRepository samplePosts).GetById id) :=
  ⟨⟨by decide,
    (insert_then_getById (CustomCommentRepository sampleComments) sampleFresh
      (CustomPostRepository samplePosts) samplePostFresh).1 (by decide)⟩,
   ⟨by decide,
    (insert_then_getById (CustomCommentRepository sampleComments) sampleFresh
      (CustomPostRepository samplePosts) samplePostFresh).2 (by decide)⟩⟩

/-- C24: for every comment sequence and every comment `e`, when `Insert(e)`
returns no error `GetAllByPostId(e.PostId)` afterwards is its value before the
insert with `e` appended at the end, and `GetAllByPostId(q)` is as before for
every `q` other than `e.PostId`; when `Insert(e)` returns an error,
`GetAllByPostId` is as before for every post id. -/
theorem insert_then_getAllByPostId (c : CommentRepository) (e : Comment) :
    ((c.Insert e).2 = none →
        (c.Insert e).1.GetAllByPostId e.PostId = c.GetAllByPostId e.PostId ++ [e]
          ∧ ∀ q, q ≠ e.PostId → (c.Insert e).1.GetAllByPostId q = c.GetAllByPostId q)
    ∧ ((c.Insert e).2 ≠ none →
        ∀ q, (c.Insert e).1.GetAllByPostId q = c.GetAllByPostId q) := by
  refine ⟨?_, ?_⟩
  · intro h
    rw [comment_Insert_miss c e (comment_Insert_ok_fresh c e h)]
    refine ⟨?_, ?_⟩
    · simp [service.comment_GetAllByPostId_filter, List.filter_append]
    · intro q hq
      have hne : ¬ e.PostId = q := fun heq => hq heq.symm
      simp [service.comment_GetAllByPostId_filter, List.filter_append, hne]
  · intro h q
    rw [comment_Insert_hit c e (comment_Insert_err_taken c e h)]

theorem insert_then_getAllByPostId_witness :
    (((CustomCommentRepository sampleComments).Insert sampleFresh).2 = none
      ∧ ((CustomCommentRepository sampleComments).Insert sampleFresh).1.GetAllByPostId
            sampleFresh.PostId
          = (CustomCommentRepository sampleComments).GetAllByPostId sampleFresh.PostId
              ++ [sampleFresh]
      ∧ ∀ q, q ≠ sampleFresh.PostId →
          ((CustomCommentRepository sampleComments).Insert sampleFresh).1.GetAllByPostId q
            = (CustomCommentRepository sampleComments).GetAllByPostId q)
    ∧ (((CustomCommentRepository sampleComments).Insert sampleClash).2 ≠ none
      ∧ ∀ q, ((CustomCommentRepository sampleComments).Insert sampleClash).1.GetAllByPostId q
          = (CustomCommentRepository sampleComments).GetAllByPostId q) :=
  ⟨⟨by decide,
    (insert_then_getAllByPostId (CustomCommentRepository sampleComments) sampleFresh).1
      (by decide)⟩,
   ⟨by decide,
    (insert_then_getAllByPostId (CustomCommentRepository sampleComments) sampleClash).2
      (by decide)⟩⟩

end repository

/-! ## What the handlers do to the repositories -/

namespace service

open model repository

/-- An `Insert` on a comment repository keeps the stored sequence as a prefix. -/
theorem comment_Insert_extends (c : CommentRepository) (e : Comment) :
    c.repository <+: (c.Insert e).1.repository := by
  by_cases hx : ∃ x ∈ c.repository, x.Id = e.Id
  · rw [comment_Insert_hit c e hx]
  · rw [comment_Insert_miss c e hx]
    exact List.prefix_append _ _

/-- An `Insert` on a post repository keeps the stored sequence as a prefix. -/
theorem post_Insert_extends (c : PostRepository) (e : Post) :
    c.repository <+: (c.Insert e).1.repository := by
  by_cases hx : ∃ x ∈ c.repository, x.Id = e.Id
  · rw [post_Insert_hit c e hx]
  · rw [post_Insert_miss c e hx]
    exact List.prefix_append _ _

/-- The service after `handleGetPostByPostId`, on any response writer. -/
theorem handleGetPostByPostId_state (svc : RestApiService) (w : ResponseWriter)
    (r : http.Request) : (svc.handleGetPostByPostId w r).1 = svc := by
  cases hparse : strconv.Atoi (mux.Vars r "id") with
  | none => simp only [RestApiService.handleGetPostByPostId, hparse]
  | some v =>
    rcases hget : svc.postRepository.GetById (uint64 v) with ⟨res, err⟩
    cases err <;> simp only [RestApiService.handleGetPostByPostId, hparse, hget]

/-- The service after `handleGetCommentsByPostId`, on any response writer. -/
theorem handleGetCommentsByPostId_state (svc : RestApiService) (w : ResponseWriter)
    (r : http.Request) : (svc.handleGetCommentsByPostId w r).1 = svc := by
  cases hparse : strconv.Atoi (mux.Vars r "id") <;>
    simp only [RestApiService.handleGetCommentsByPostId, hparse]

/-- The service after `handleAddPost`, on any response writer: the comment
repository as before, and the post repository as before or after one `Insert`. -/
theorem handleAddPost_state (decode : json.Decoder Post) (svc : RestApiService)
    (w : ResponseWriter) (r : http.Request) :
    (svc.handleAddPost decode w r).1.commentRepository = svc.commentRepository
      ∧ ((svc.handleAddPost decode w r).1.postRepository = svc.postRepository
          ∨ ∃ p, (svc.handleAddPost decode w r).1.postRepository
              = (svc.postRepository.Insert p).1) := by
  cases hdec : decode r.Body with
  | none =>
    refine ⟨?_, Or.inl ?_⟩ <;> simp [RestApiService.handleAddPost, hdec]
  | some p =>
    rcases hins : svc.postRepository.Insert p with ⟨repo, err⟩
    cases err with
    | none =>
      refine ⟨?_, Or.inr ⟨p, ?_⟩⟩ <;> simp [RestApiService.handleAddPost, hdec, hins]
    | some e =>
      refine ⟨?_, Or.inr ⟨p, ?_⟩⟩ <;> simp [RestApiService.handleAddPost, hdec, hins]

/-- The service after `handleAddComment`, on any response writer: the post
repository as before, and the comment repository as before or after one `Insert`. -/
theorem handleAddComment_state (decode : json.Decoder Comment) (svc : RestApiService)
    (w : ResponseWriter) (r : http.Request) :
    (svc.handleAddComment decode w r).1.postRepository = svc.postRepository
      ∧ ((svc.handleAddComment decode w r).1.commentRepository = svc.commentRepository
          ∨ ∃ c, (svc.handleAddComment decode w r).1.commentRepository
              = (svc.commentRepository.Insert c).1) := by
  cases hdec : decode r.Body with
  | none =>
    refine ⟨?_, Or.inl ?_⟩ <;> simp [RestApiService.handleAddComment, hdec]
  | some c =>
    by_cases hid : c.Id ≤ 0
    · refine ⟨?_, Or.inl ?_⟩ <;> simp [RestApiService.handleAddComment, hdec, hid]
    · rcases hins : svc.commentRepository.Insert c with ⟨repo, err⟩
      cases err with
      | none =>
        refine ⟨?_, Or.inr ⟨c, ?_⟩⟩ <;>
          simp [RestApiService.handleAddComment, hdec, hid, hins]
      | some e =>
        refine ⟨?_, Or.inr ⟨c, ?_⟩⟩ <;>
          simp [RestApiService.handleAddComment, hdec, hid, hins]

/-- C21: the repositories are append-only. Each `Insert` keeps the stored
sequence as a prefix of the sequence after the call; for every request, every
prior state and every response writer, `handleAddPost` and `handleAddComment`
leave each repository with its previous content as a prefix of the new one, so
that no stored entity is removed, reordered or modified, and the two GET
handlers, which are the callers of the lookups `GetById` and `GetAllByPostId`,
return the service with both repositories exactly as they were. -/
theorem repositories_are_append_only (decodePost : json.Decoder Post)
    (decodeComment : json.Decoder Comment) (svc : RestApiService) (w : ResponseWriter)
    (r : http.Request) (c : CommentRepository) (e : Comment) (p : PostRepository) (q : Post) :
    (c.repository <+: (c.Insert e).1.repository
      ∧ p.repository <+: (p.Insert q).1.repository)
    ∧ (svc.handleGetPostByPostId w r).1 = svc
    ∧ (svc.handleGetCommentsByPostId w r).1 = svc
    ∧ (svc.postRepository.repository
          <+: (svc.handleAddPost decodePost w r).1.postRepository.repository
        ∧ svc.commentRepository.repository
          <+: (svc.handleAddPost decodePost w r).1.commentRepository.repository)
    ∧ (svc.postRepository.repository
          <+: (svc.handleAddComment decodeComment w r).1.postRepository.repository
        ∧ svc.commentRepository.repository
          <+: (svc.handleAddComment decodeComment w r).1.commentRepository.repository) := by
  refine ⟨⟨comment_Insert_extends c e, post_Insert_extends p q⟩,
    handleGetPostByPostId_state svc w r, handleGetCommentsByPostId_state svc w r, ?_, ?_⟩
  · obtain ⟨hc, hp⟩ := handleAddPost_state decodePost svc w r
    rw [hc]
    refine ⟨?_, List.prefix_refl _⟩
    rcases hp with hp | ⟨x, hp⟩
    · rw [hp]
    · rw [hp]
      exact post_Insert_extends svc.postRepository x
  · obtain ⟨hp, hc⟩ := handleAddComment_state decodeComment svc w r
    rw [hp]
    refine ⟨List.prefix_refl _, ?_⟩
    rcases hc with hc | ⟨x, hc⟩
    · rw [hc]
    · rw [hc]
      exact comment_Insert_extends svc.commentRepository x

/-- The response and the comment repository of `handleAddComment` do not
depend on the post repository. -/
theorem handleAddComment_posts_irrelevant (decode : json.Decoder Comment)
    (p1 p2 : PostRepository) (c : CommentRepository) (w : ResponseWriter) (r : http.Request) :
    (RestApiService.handleAddComment decode
        { postRepository := p1, commentRepository := c } w r).2
      = (RestApiService.handleAddComment decode
          { postRepository := p2, commentRepository := c } w r).2
    ∧ (RestApiService.handleAddComment decode
        { postRepository := p1, commentRepository := c } w r).1.commentRepository
      = (RestApiService.handleAddComment decode
          { postRepository := p2, commentRepository := c } w r).1.commentRepository := by
  cases hdec : decode r.Body with
  | none =>
    refine ⟨?_, ?_⟩ <;> simp [RestApiService.handleAddComment, hdec]
  | some body =>
    by_cases hid : body.Id ≤ 0
    · refine ⟨?_, ?_⟩ <;> simp [RestApiService.handleAddComment, hdec, hid]
    · rcases hins : c.Insert body with ⟨repo, err⟩
      cases err with
      | none =>
        refine ⟨?_, ?_⟩ <;> simp [RestApiService.handleAddComment, hdec, hid, hins]
      | some e =>
        refine ⟨?_, ?_⟩ <;> simp [RestApiService.handleAddComment, hdec, hid, hins]

/-- C22: there is no referential integrity. For every request, every comment
repository and every response writer, the response of `handleAddComment` and
the comment repository it leaves are the same for any two post repositories,
and the post repository is returned as it was; in particular a comment that
decodes with a positive free id is appended to the comment repository whatever
the post repository holds, a post with its `PostId` or none. -/
theorem add_comment_ignores_posts (decode : json.Decoder Comment)
    (p1 p2 : PostRepository) (c : CommentRepository) (w : ResponseWriter) (r : http.Request)
    (cm : Comment) :
    ((RestApiService.handleAddComment decode
          { postRepository := p1, commentRepository := c } w r).2
        = (RestApiService.handleAddComment decode
            { postRepository := p2, commentRepository := c } w r).2
      ∧ (RestApiService.handleAddComment decode
          { postRepository := p1, commentRepository := c } w r).1.commentRepository
        = (RestApiService.handleAddComment decode
            { postRepository := p2, commentRepository := c } w r).1.commentRepository)
    ∧ (RestApiService.handleAddComment decode
          { postRepository := p1, commentRepository := c } w r).1.postRepository = p1
    ∧ (decode r.Body = some cm → cm.Id > 0 → (∀ x ∈ c.repository, x.Id ≠ cm.Id) →
        (RestApiService.handleAddComment decode
            { postRepository := p1, commentRepository := c } NewRecorder r).1.commentRepository
          = { repository := c.repository ++ [cm] }
        ∧ (RestApiService.handleAddComment decode
            { postRepository := p1, commentRepository := c } NewRecorder r).2.Code = 200) := by
  refine ⟨handleAddComment_posts_irrelevant decode p1 p2 c w r,
    (handleAddComment_state decode { postRepository := p1, commentRepository := c } w r).1, ?_⟩
  intro hdec hid hfresh
  have hx : ¬ ∃ x ∈ c.repository, x.Id = cm.Id := fun ⟨x, hxs, hxe⟩ => hfresh x hxs hxe
  rw [handleAddComment_of_fresh decode { postRepository := p1, commentRepository := c } r
    cm hdec hid hx]
  exact ⟨rfl, rfl⟩

theorem add_comment_ignores_posts_witness :
    sampleDecodeComment (bodyRequest sampleValidBody).Body = some sampleValidComment
    ∧ sampleValidComment.Id > 0
    ∧ (∀ x ∈ (CustomCommentRepository sampleComments).repository, x.Id ≠ sampleValidComment.Id)
    ∧ (∀ x ∈ NewPostRepository.repository, x.Id ≠ sampleValidComment.PostId)
    ∧ (RestApiService.handleAddComment sampleDecodeComment
          { postRepository := NewPostRepository,
            commentRepository := CustomCommentRepository sampleComments }
          NewRecorder (bodyRequest sampleValidBody)).1.commentRepository
        = { repository := sampleComments ++ [sampleValidComment] }
    ∧ (RestApiService.handleAddComment sampleDecodeComment
          { postRepository := NewPostRepository,
            commentRepository := CustomCommentRepository sampleComments }
          NewRecorder (bodyRequest sampleValidBody)).2.Code = 200 :=
  ⟨by decide, by decide, by decide, by decide,
   (add_comment_ignores_posts sampleDecodeComment NewPostRepository
      (CustomPostRepository samplePosts) (CustomCommentRepository sampleComments)
      NewRecorder (bodyRequest sampleValidBody) sampleValidComment).2.2
      (by decide) (by decide) (by decide)⟩

end service

/-! ## Signed parse, unsigned identifiers -/

namespace service

open model repository

/-- C25: the GET handlers parse the path variable with the signed `Atoi` and
convert the result with `uint64(id)`. For every path variable that `Atoi`
accepts with value `v`, `v` lies in `-2^63 .. 2^63 - 1` and the repository is
queried with `v mod 2^64`: `handleGetPostByPostId` answers 200 with the post
`GetById(v mod 2^64)` returns, or 404 when no post has that id, never 400, and
`handleGetCommentsByPostId` answers 200 with `GetAllByPostId(v mod 2^64)`; so
`-1` queries the id `2^64 - 1`. The decimal string of any id `n` with
`2^63 ≤ n < 2^64` is answered by both handlers with the 400 envelope
`wrong id path variable: <n>`, whatever the repositories hold. -/
theorem signed_parse_then_unsigned_conversion (svc : RestApiService) (r : http.Request)
    (v : Int) (n : Nat) :
    (strconv.Atoi (mux.Vars r "id") = some v →
        (-(2 : Int) ^ 63 ≤ v ∧ v < (2 : Int) ^ 63)
        ∧ (∀ x, svc.postRepository.GetById (v % (2 : Int) ^ 64).toNat = (some x, none) →
            svc.handleGetPostByPostId NewRecorder r
              = (svc, jsonRecorder 200 (Payload.post x)))
        ∧ ((∀ y ∈ svc.postRepository.repository, y.Id ≠ (v % (2 : Int) ^ 64).toNat) →
            svc.handleGetPostByPostId NewRecorder r
              = (svc, jsonRecorder 404
                  (Payload.ack
                    { Message := "Post with id: " ++ toString v ++ " does not exist",
                      Status := 404 })))
        ∧ (svc.handleGetPostByPostId NewRecorder r).2.Code ≠ 400
        ∧ svc.handleGetCommentsByPostId NewRecorder r
            = (svc, jsonRecorder 200
                (Payload.comments
                  (svc.commentRepository.GetAllByPostId (v % (2 : Int) ^ 64).toNat))))
    ∧ (strconv.Atoi "-1" = some (-1)
        ∧ ((-1 : Int) % (2 : Int) ^ 64).toNat = 2 ^ 64 - 1)
    ∧ (2 ^ 63 ≤ n → n < 2 ^ 64 →
        svc.handleGetPostByPostId NewRecorder (pathRequest (toString n))
            = (svc, jsonRecorder 400
                (Payload.ack
                  { Message := "wrong id path variable: " ++ toString n, Status := 400 }))
        ∧ svc.handleGetCommentsByPostId NewRecorder (pathRequest (toString n))
            = (svc, jsonRecorder 400
                (Payload.ack
                  { Message := "wrong id path variable: " ++ toString n, Status := 400 }))) := by
  refine ⟨?_, ⟨by decide, by decide⟩, fun hn _ => handlers_decimal_large svc n hn⟩
  intro hparse
  refine ⟨strconv.Atoi_bounds _ v hparse, ?_, ?_, ?_, ?_⟩
  · intro x hget
    exact handleGetPostByPostId_of_found svc r v x hparse hget
  · intro habsent
    exact handleGetPostByPostId_of_absent svc r v hparse habsent
  · by_cases hx : ∃ y ∈ svc.postRepository.repository, y.Id = uint64 v
    · obtain ⟨_, x, _, _, _, _, hget⟩ := post_GetById_hit svc.postRepository (uint64 v) hx
      rw [handleGetPostByPostId_of_found svc r v x hparse hget]
      show (200 : Int) ≠ 400
      decide
    · have habsent : ∀ y ∈ svc.postRepository.repository, y.Id ≠ uint64 v :=
        fun y hys hye => hx ⟨y, hys, hye⟩
      rw [handleGetPostByPostId_of_absent svc r v hparse habsent]
      show (404 : Int) ≠ 400
      decide
  · exact handleGetCommentsByPostId_of_parsed svc r v hparse

theorem signed_parse_then_unsigned_conversion_witness :
    (strconv.Atoi (mux.Vars (pathRequest "-5") "id") = some (-5)
      ∧ sampleService.postRepository.GetById ((-5 : Int) % (2 : Int) ^ 64).toNat
          = (some sampleWrappedPost, none)
      ∧ sampleService.handleGetPostByPostId NewRecorder (pathRequest "-5")
          = (sampleService, jsonRecorder 200 (Payload.post sampleWrappedPost))
      ∧ (sampleService.handleGetPostByPostId NewRecorder (pathRequest "-5")).2.Code ≠ 400)
    ∧ ((2 : Nat) ^ 63 ≤ 9223372036854775808 ∧ (9223372036854775808 : Nat) < 2 ^ 64
      ∧ (∃ x ∈ sampleLargeService.postRepository.repository, x.Id = 9223372036854775808)
      ∧ sampleLargeService.handleGetPostByPostId NewRecorder
            (pathRequest (toString (9223372036854775808 : Nat)))
          = (sampleLargeService, jsonRecorder 400
              (Payload.ack
                { Message := "wrong id path variable: " ++ toString (9223372036854775808 : Nat),
                  Status := 400 }))) :=
  ⟨⟨by decide, by decide,
    ((signed_parse_then_unsigned_conversion sampleService (pathRequest "-5") (-5) 0).1
      (by decide)).2.1 sampleWrappedPost (by decide),
    ((signed_parse_then_unsigned_conversion sampleService (pathRequest "-5") (-5) 0).1
      (by decide)).2.2.2.1⟩,
   ⟨by decide, by decide, by decide,
    ((signed_parse_then_unsigned_conversion sampleLargeService (pathRequest "0") 0
      9223372036854775808).2.2 (by decide) (by decide)).1⟩⟩

end service
